import Mathlib

/-!
Verification of the replication log applier server (`ReplServer.cpp`):
a shallow embedding of the control file, the active-transaction set, the
block dispatcher and the per-target replay pass `process_archive`, with
theorems settling the specification claims about them.

Machine integers (`FB_UINT64`, `ULONG`, `TraNumber`) are modelled as `Nat`;
the program never wraps them (sequences and offsets only grow by small
increments), so no explicit modular arithmetic is required.
-/

/-! ## Active-transaction set (`ActiveTransaction`, `TransactionList`) -/

/-- One entry of the active-transaction set: `(tra_id, sequence)`. -/
structure ActiveTransaction where
  tra_id : Nat
  sequence : Nat
deriving DecidableEq, Repr

/-- `TransactionList`: the sorted array of active transactions, modelled as a
list ordered by `tra_id` (ordering is maintained by `addTxn`). -/
abbrev TransactionList := List ActiveTransaction

/-- `transactions.exist(traNumber)`: membership by transaction id. -/
def existTxn (l : TransactionList) (id : Nat) : Bool :=
  l.any fun a => a.tra_id == id

/-- `transactions.find(traNumber, pos); transactions.remove(pos)`:
remove the first entry with the given id, if any. -/
def removeTxn : TransactionList → Nat → TransactionList
  | [], _ => []
  | a :: rest, id => if a.tra_id = id then rest else a :: removeTxn rest id

/-- `transactions.add(item)`: sorted insertion by `tra_id`. -/
def addTxn : TransactionList → ActiveTransaction → TransactionList
  | [], a => [a]
  | b :: rest, a =>
    if a.tra_id ≤ b.tra_id then a :: b :: rest else b :: addTxn rest a

/-- `MAX_UINT64`, the fold seed of `getOldestSequence`. -/
def MAX_UINT64 : Nat := 2 ^ 64 - 1

/-- `getOldestSequence(transactions)`: 0 when empty, otherwise the minimum
originating sequence over all active transactions. -/
def getOldestSequence (l : TransactionList) : Nat :=
  if l.isEmpty then 0
  else l.foldl (fun s a => min s a.sequence) MAX_UINT64

/-! ## Control file (`ControlFile`) -/

/-- `CTL_SIGNATURE`. -/
def CTL_SIGNATURE : String := "FBREPLCTL"

/-- `CTL_VERSION1` = `CTL_CURRENT_VERSION`. -/
def CTL_VERSION1 : Nat := 1

/-- The durable contents of a control file: the `DataV1` header followed by
the serialized transaction records.  `records` is everything after the
header parsed as `(tra_id, sequence)` records; only the first `txn_count`
of them are meaningful (the file is never truncated, so stale records may
trail behind). -/
structure StoredCtl where
  signature : String
  version : Nat
  txn_count : Nat
  sequence : Nat
  offset : Nat
  db_sequence : Nat
  records : TransactionList
deriving DecidableEq, Repr

/-- The in-memory `m_data` of an open control file (minus the constant
signature/version fields). -/
structure CtlMem where
  txn_count : Nat
  sequence : Nat
  offset : Nat
  db_sequence : Nat
deriving DecidableEq, Repr

/-- An open control file: the in-memory `m_data` plus the bytes on disk. -/
structure ControlFile where
  mem : CtlMem
  disk : StoredCtl
deriving DecidableEq, Repr

/-- Write the fixed-size header only (`write(m_handle, &m_data, sizeof(Data))`):
the transaction records already on disk are left untouched. -/
def writeHeader (c : ControlFile) (m : CtlMem) : ControlFile :=
  { mem := m,
    disk := { signature := CTL_SIGNATURE, version := CTL_VERSION1,
              txn_count := m.txn_count, sequence := m.sequence,
              offset := m.offset, db_sequence := m.db_sequence,
              records := c.disk.records } }

/-- Write the header followed by the current transaction records.  The file
is not truncated, so old records beyond the new count survive on disk. -/
def writeFull (c : ControlFile) (m : CtlMem) (t : TransactionList) : ControlFile :=
  { mem := m,
    disk := { signature := CTL_SIGNATURE, version := CTL_VERSION1,
              txn_count := m.txn_count, sequence := m.sequence,
              offset := m.offset, db_sequence := m.db_sequence,
              records := t ++ c.disk.records.drop t.length } }

/-- `ControlFile::saveDbSequence`. -/
def saveDbSequence (c : ControlFile) (db : Nat) : ControlFile :=
  writeHeader c { c.mem with db_sequence := db }

/-- `ControlFile::savePartial`. -/
def savePartial (c : ControlFile) (sequence offset : Nat) (t : TransactionList) :
    ControlFile :=
  if c.mem.sequence < sequence then
    writeFull c { txn_count := t.length, sequence := sequence, offset := offset,
                  db_sequence := c.mem.db_sequence } t
  else if sequence = c.mem.sequence ∧ c.mem.offset < offset then
    writeFull c { txn_count := t.length, sequence := c.mem.sequence, offset := offset,
                  db_sequence := c.mem.db_sequence } t
  else c

/-- The `fb_assert(!m_data.offset)` inside `ControlFile::savePartial`,
as a boolean check evaluated at the call. -/
def savePartialAssert (c : ControlFile) (sequence : Nat) : Bool :=
  !(decide (c.mem.sequence < sequence)) || (c.mem.offset == 0)

/-- `ControlFile::saveComplete`. -/
def saveComplete (c : ControlFile) (sequence : Nat) (t : TransactionList) :
    ControlFile :=
  if c.mem.sequence ≤ sequence then
    writeFull c { txn_count := t.length, sequence := sequence, offset := 0,
                  db_sequence := c.mem.db_sequence } t
  else c

/-- The transaction list produced by the `ControlFile` constructor when the
file already exists: the stored records replace the caller's list only when
`txn_count` is nonzero. -/
def ctlTrans (s : StoredCtl) (trans : TransactionList) : TransactionList :=
  if s.txn_count ≠ 0 then s.records.take s.txn_count else trans

/-- The `ControlFile` constructor: create-or-open.  `none` stands for an
empty (freshly created) file, which is initialized from the hint sequence;
an existing file is validated and its active-transaction snapshot is read
into the caller's list. -/
def ctlOpen (file : Option StoredCtl) (sequence : Nat) (trans : TransactionList) :
    Except String (ControlFile × TransactionList) :=
  match file with
  | none =>
    let m : CtlMem := { txn_count := 0,
                        sequence := if sequence ≠ 0 then sequence - 1 else 0,
                        offset := 0, db_sequence := 0 }
    Except.ok ({ mem := m,
                 disk := { signature := CTL_SIGNATURE, version := CTL_VERSION1,
                           txn_count := 0, sequence := m.sequence, offset := 0,
                           db_sequence := 0, records := [] } }, trans)
  | some s =>
    if s.signature = CTL_SIGNATURE ∧ s.version = CTL_VERSION1 then
      if s.records.length < s.txn_count then
        Except.error "Control file appears corrupted"
      else
        Except.ok ({ mem := { txn_count := s.txn_count, sequence := s.sequence,
                              offset := s.offset, db_sequence := s.db_sequence },
                     disk := s }, ctlTrans s trans)
    else
      Except.error "Control file appears corrupted"

/-- The sequence of control-file write operations, for stating monotonicity
across an arbitrary run of updates. -/
inductive CtlOp where
  | saveDb (db : Nat)
  | savePart (sequence offset : Nat) (t : TransactionList)
  | saveComp (sequence : Nat) (t : TransactionList)
deriving DecidableEq, Repr

/-- Apply one control-file write operation. -/
def applyCtlOp (c : ControlFile) : CtlOp → ControlFile
  | CtlOp.saveDb db => saveDbSequence c db
  | CtlOp.savePart s o t => savePartial c s o t
  | CtlOp.saveComp s t => saveComplete c s t

/-! ## Segment files (`SegmentHeader`, `Block`, `LogSegment`) -/

/-- Modelled from the spec: the fixed magic of a segment header
(`LOG_SIGNATURE`, declared in the replication protocol header which is not
among the sources; its concrete value is immaterial to every claim). -/
def LOG_SIGNATURE : String := "FBLOG"

/-- Modelled from the spec: `LOG_CURRENT_VERSION`. -/
def LOG_CURRENT_VERSION : Nat := 1

/-- Modelled from the spec: `PROTOCOL_VERSION1`. -/
def PROTOCOL_VERSION1 : Nat := 1

/-- Modelled from the spec: segment state `FREE` (spec fixes `FREE=1..ARCH=4`). -/
def SEGMENT_STATE_FREE : Nat := 1

/-- Modelled from the spec: segment state `USED`. -/
def SEGMENT_STATE_USED : Nat := 2

/-- Modelled from the spec: segment state `FULL`. -/
def SEGMENT_STATE_FULL : Nat := 3

/-- Modelled from the spec: segment state `ARCH`. -/
def SEGMENT_STATE_ARCH : Nat := 4

/-- Modelled from the spec: the `BLOCK_BEGIN_TRANS` flag bit. -/
def BLOCK_BEGIN_TRANS : Nat := 1

/-- Modelled from the spec: the `BLOCK_END_TRANS` flag bit. -/
def BLOCK_END_TRANS : Nat := 2

/-- Modelled from the spec: `sizeof(SegmentHeader)` (a fixed positive size;
its concrete value is immaterial to every claim). -/
def SIZEOF_SEGMENT_HEADER : Nat := 48

/-- Modelled from the spec: `sizeof(Block)` = u64 + u32 + u32 + u32 = 20 bytes. -/
def SIZEOF_BLOCK : Nat := 20

/-- Modelled from the spec: the on-disk segment header (`SegmentHeader` from
the replication protocol header, which is not among the sources; the field
set is the one the spec's section 6 describes and the driver reads). -/
structure SegmentHeader where
  hdr_signature : String
  hdr_version : Nat
  hdr_state : Nat
  hdr_protocol : Nat
  hdr_guid : Nat
  hdr_sequence : Nat
  hdr_length : Nat
deriving DecidableEq, Repr

/-- Modelled from the spec: a block header (`Block` from the replication
protocol header): transaction id, flags bitmap and payload lengths. -/
structure Block where
  traNumber : Nat
  flags : Nat
  dataLength : Nat
  metaLength : Nat
deriving DecidableEq, Repr

/-- `validateHeader`. -/
def validateHeader (h : SegmentHeader) : Bool :=
  h.hdr_signature == LOG_SIGNATURE &&
  h.hdr_version == LOG_CURRENT_VERSION &&
  (h.hdr_state == SEGMENT_STATE_FREE || h.hdr_state == SEGMENT_STATE_USED ||
   h.hdr_state == SEGMENT_STATE_FULL || h.hdr_state == SEGMENT_STATE_ARCH) &&
  h.hdr_protocol == PROTOCOL_VERSION1

/-- Outcome of an `os_utils::open` call on a segment file: success, a
sharing violation (`EACCES`/`EAGAIN`), or any other failure. -/
inductive OpenRes where
  | ok
  | denied
  | failed
deriving DecidableEq, Repr

/-- One file of the archive directory as the driver can observe it:
its name (abstracted to a number), whether the name matches the primary's
in-progress pattern (`{`, `}` and `-`), the outcomes of the two opens
(during the scan and during replay), the `stat` size, the header, whether
the header re-read at replay differs from the scanned one, and the parsed
stream of blocks behind the header. -/
structure SegFile where
  name : Nat
  tmpName : Bool
  scanOpen : OpenRes
  replayOpen : OpenRes
  size : Nat
  header : SegmentHeader
  changedAtReplay : Bool
  blocks : List Block
deriving DecidableEq, Repr

/-! ## Target configuration and world state -/

/-- The per-target configuration the pass consumes. -/
structure Config where
  sourceGuid : Option Nat
  applyIdleTimeout : Nat
  applyErrorTimeout : Nat
deriving DecidableEq, Repr

/-- The environment of one `process_archive` pass: directory contents,
control files on disk (keyed by source GUID), the replica's reported
replication sequence, the target's connection state and last logged error,
and the replica's response to apply calls. -/
structure World where
  cfg : Config
  files : List SegFile
  ctls : List (Nat × StoredCtl)
  replicaSeq : Nat
  connected : Bool
  lastError : String
  applyOk : Bool
  applyErrMsg : String
deriving DecidableEq, Repr

/-- `Target::checkGuid`. -/
def checkGuid (cfg : Config) (g : Nat) : Bool :=
  match cfg.sourceGuid with
  | none => true
  | some e => e == g

/-- Look up the control file stored for a GUID. -/
def lookupCtl : List (Nat × StoredCtl) → Nat → Option StoredCtl
  | [], _ => none
  | (g, c) :: rest, k => if g = k then some c else lookupCtl rest k

/-- Store the control file for a GUID. -/
def updateCtl : List (Nat × StoredCtl) → Nat → StoredCtl → List (Nat × StoredCtl)
  | [], k, c => [(k, c)]
  | (g, c0) :: rest, k, c =>
    if g = k then (k, c) :: rest else (g, c0) :: updateCtl rest k c

/-! ## Pass bookkeeping (instrumentation of observable actions) -/

/-- `PROCESS_SUSPEND | PROCESS_CONTINUE | PROCESS_ERROR`. -/
inductive ProcessStatus where
  | PROCESS_SUSPEND
  | PROCESS_CONTINUE
  | PROCESS_ERROR
deriving DecidableEq, Repr

/-- The deletion sites of `process_archive`. -/
inductive DelSite where
  | scanFree
  | fastForward
  | threshold
  | queueGC
  | consumed
deriving DecidableEq, Repr

/-- A recorded segment-file deletion, with a snapshot of the state the
driver held when it unlinked the file: the segment's sequence, the replica's
reported `db_sequence`, the stored control-file cursor for the segment's
GUID, and the in-memory active-transaction set. -/
structure Deletion where
  site : DelSite
  seq : Nat
  dbSeq : Nat
  ctlSeq : Nat
  ctlOff : Nat
  active : TransactionList
deriving DecidableEq, Repr

/-- A recorded dispatch decision for one block with nonzero payload:
whether its bytes were handed to the replica (`applied`), the rewind flag
the code computed, the control-file cursor read at segment open
(`lsOpen`, `loOpen`), whether the replica-reset branch ran for this segment
(`reset`) and the replica's `db_sequence`, plus the active set at the
moment of the decision. -/
structure ApplyEv where
  seq : Nat
  tra : Nat
  tot : Nat
  applied : Bool
  rewind : Bool
  lsOpen : Nat
  loOpen : Nat
  reset : Bool
  db : Nat
  active : TransactionList
deriving DecidableEq, Repr

/-- The mutable state threaded through one pass of `process_archive`. -/
structure PassState where
  ctls : List (Nat × StoredCtl)
  trans : TransactionList
  next : Nat
  ret : ProcessStatus
  completed : Nat
  removed : List Nat
  deletions : List Deletion
  applies : List ApplyEv
  spAssertOk : Bool
deriving DecidableEq, Repr

/-- Outcome of one segment iteration: go on to the next queue entry,
break out of the loop, or propagate an exception. -/
inductive StepRes where
  | next (st : PassState)
  | stop (st : PassState)
  | fail (st : PassState) (msg : String)
deriving DecidableEq, Repr

/-- The observable outcome of one `process_archive` pass. -/
structure PassResult where
  status : ProcessStatus
  errMsg : Option String
  logged : List String
  lastError : String
  deletions : List Deletion
  applies : List ApplyEv
  spAssertOk : Bool
  ctls : List (Nat × StoredCtl)
  completed : Nat
deriving DecidableEq, Repr

/-! ## Substring test (for the `message.find("Replication")` check) -/

/-- Character-list version of `isPrefixOf`. -/
def isPrefOf : List Char → List Char → Bool
  | [], _ => true
  | _ :: _, [] => false
  | a :: as, b :: bs => a == b && isPrefOf as bs

/-- Does `pat` occur inside the list? -/
def hasSubAux (pat : List Char) : List Char → Bool
  | [] => isPrefOf pat []
  | c :: rest => isPrefOf pat (c :: rest) || hasSubAux pat rest

/-- `s.find(pat) != npos`: does `pat` occur inside `s`? -/
def hasSub (s pat : String) : Bool :=
  hasSubAux pat.toList s.toList

/-! ## The scan phase (first pass over the directory) -/

/-- Build the deletion record for unlinking a segment file, snapshotting the
stored control-file cursor of the file's GUID, the replica's reported
sequence and the given active set. -/
def mkDeletion (site : DelSite) (f : SegFile) (ctls : List (Nat × StoredCtl))
    (db : Nat) (active : TransactionList) : Deletion :=
  match lookupCtl ctls f.header.hdr_guid with
  | some c => { site := site, seq := f.header.hdr_sequence, dbSeq := db,
                ctlSeq := c.sequence, ctlOff := c.offset, active := active }
  | none => { site := site, seq := f.header.hdr_sequence, dbSeq := db,
              ctlSeq := 0, ctlOff := 0, active := active }

/-- `queue.add(...)`: sorted insertion by `hdr_sequence` (lower bound). -/
def queueInsert : List SegFile → SegFile → List SegFile
  | [], f => [f]
  | g :: rest, f =>
    if f.header.hdr_sequence ≤ g.header.hdr_sequence then f :: g :: rest
    else g :: queueInsert rest f

/-- The suffix of the queue from the lower-bound position of a sequence
(`queue.find(key, pos)` followed by iteration from `pos`). -/
def lbSuffix : List SegFile → Nat → List SegFile
  | [], _ => []
  | f :: rest, k => if k ≤ f.header.hdr_sequence then f :: rest else lbSuffix rest k

/-- The scan loop of `process_archive`: skip in-progress names, skip
sharing violations, skip short or invalid or foreign files, unlink `FREE`
segments on sight (ignoring unlink errors), and queue the rest in
sequence order.  Returns the queue, the recorded deletions, the names
already unlinked, and the error of a failed open if one aborted the scan. -/
def scanLoop (w : World) :
    List SegFile → List SegFile → List Deletion → List Nat →
    List SegFile × List Deletion × List Nat × Option String
  | [], queue, dels, removed => (queue, dels, removed, none)
  | f :: rest, queue, dels, removed =>
    if f.tmpName then scanLoop w rest queue dels removed
    else
      match f.scanOpen with
      | OpenRes.denied => scanLoop w rest queue dels removed
      | OpenRes.failed =>
        (queue, dels, removed, some ("Log file " ++ toString f.name ++ " open failed"))
      | OpenRes.ok =>
        if f.size < SIZEOF_SEGMENT_HEADER then scanLoop w rest queue dels removed
        else if !validateHeader f.header then scanLoop w rest queue dels removed
        else if f.size < f.header.hdr_length then scanLoop w rest queue dels removed
        else if f.header.hdr_state = SEGMENT_STATE_FREE then
          scanLoop w rest queue
            (dels ++ [mkDeletion DelSite.scanFree f w.ctls w.replicaSeq []])
            (f.name :: removed)
        else if !checkGuid w.cfg f.header.hdr_guid then scanLoop w rest queue dels removed
        else scanLoop w rest (queueInsert queue f) dels removed

/-! ## The replay phase (second pass over the queue) -/

/-- `LogSegment::remove`: unlink the file, recording the deletion; a second
unlink of the same name fails and raises. -/
def removeFile (w : World) (st : PassState) (f : SegFile) (site : DelSite) :
    Except String PassState :=
  if st.removed.contains f.name then
    Except.error ("Log file " ++ toString f.name ++ " unlink failed")
  else
    Except.ok { st with
      removed := f.name :: st.removed,
      deletions := st.deletions ++ [mkDeletion site f st.ctls w.replicaSeq st.trans] }

/-- `replicate` (the block dispatcher, lines 544-581): decide whether to
hand the block to the replica, then maintain the active-transaction set
from the `END_TRANS` / `BEGIN_TRANS` flags.  Returns the new set, whether
the block was handed over, and whether the apply call (if any) succeeded
(an apply failure returns immediately, before the flag handling). -/
def replicate (applyOk : Bool) (sequence : Nat) (transactions : TransactionList)
    (b : Block) (rewind : Bool) : TransactionList × Bool × Bool :=
  let doApply := !rewind || b.traNumber == 0 || existTxn transactions b.traNumber
  if doApply && !applyOk then (transactions, doApply, false)
  else
    let t :=
      if b.flags &&& BLOCK_END_TRANS ≠ 0 then
        if b.traNumber ≠ 0 then removeTxn transactions b.traNumber
        else if !rewind then [] else transactions
      else if b.flags &&& BLOCK_BEGIN_TRANS ≠ 0 then
        if !rewind && !existTxn transactions b.traNumber then
          addTxn transactions ⟨b.traNumber, sequence⟩
        else transactions
      else transactions
    (t, doApply, true)

/-- The block loop of `process_archive` (lines 788-829): read blocks while
`totalLength < hdr_length`, compute the rewind flag for each block with a
payload, dispatch it through `replicate`, and checkpoint with
`savePartial` after every block.  `lsL`/`loL` are the `last_sequence` /
`last_offset` locals; `lsO`/`loO` are the values read at segment open and
`resetF`/`db` describe the replica-reset branch (instrumentation carried
into the recorded events). -/
def blockLoop (w : World) (sequence hdrLen lsL loL lsO loO : Nat)
    (resetF : Bool) (db : Nat) :
    List Block → Nat → ControlFile → PassState →
    ControlFile × PassState × Nat × Option String
  | [], tot, cf, st =>
    if tot < hdrLen then (cf, st, tot, some "Log file read failed")
    else (cf, st, tot, none)
  | b :: rest, tot, cf, st =>
    if tot < hdrLen then
      let blockLength := b.dataLength + b.metaLength
      let len := SIZEOF_BLOCK + blockLength
      if blockLength ≠ 0 then
        let rewind := decide (sequence < lsL ∨ (sequence = lsL ∧ (loL = 0 ∨ tot < loL)))
        let r := replicate w.applyOk sequence st.trans b rewind
        let ev : ApplyEv := { seq := sequence, tra := b.traNumber, tot := tot,
                              applied := r.2.1, rewind := rewind, lsOpen := lsO,
                              loOpen := loO, reset := resetF, db := db,
                              active := st.trans }
        let st1 := { st with applies := st.applies ++ [ev] }
        if !r.2.2 then (cf, st1, tot, some w.applyErrMsg)
        else
          let st2 := { st1 with trans := r.1 }
          let tot' := tot + len
          let st3 := { st2 with spAssertOk := st2.spAssertOk && savePartialAssert cf sequence }
          let cf' := savePartial cf sequence tot' st3.trans
          blockLoop w sequence hdrLen lsL loL lsO loO resetF db rest tot' cf' st3
      else
        let tot' := tot + len
        let st1 := { st with spAssertOk := st.spAssertOk && savePartialAssert cf sequence }
        let cf' := savePartial cf sequence tot' st1.trans
        blockLoop w sequence hdrLen lsL loL lsO loO resetF db rest tot' cf' st1
    else (cf, st, tot, none)

/-- The queue garbage collection after a completed segment (lines 849-864):
walk the queue from the position of the pre-segment oldest sequence and
unlink every segment below the new threshold. -/
def gcWalk (w : World) (thr : Nat) : List SegFile → PassState → PassState × Option String
  | [], st => (st, none)
  | f :: rest, st =>
    if thr ≤ f.header.hdr_sequence then (st, none)
    else
      match removeFile w st f DelSite.queueGC with
      | Except.error m => (st, some m)
      | Except.ok st' => gcWalk w thr rest st'

/-- The queue garbage collection decision after a completed segment
(lines 844-865). -/
def segGC (w : World) (queue : List SegFile) (seq org_oldest oldest2 : Nat)
    (st6 : PassState) : PassState × Option String :=
  if org_oldest ≠ 0 ∧ oldest2 ≠ org_oldest then
    let thr2 := if oldest2 ≠ 0 then min oldest2 seq else seq
    match lbSuffix queue org_oldest with
    | [] => (st6, none)
    | f :: tl =>
      if f.header.hdr_sequence = org_oldest then gcWalk w thr2 (f :: tl) st6
      else (st6, none)
  else (st6, none)

/-- Consume or preserve the completed segment (lines 867-881). -/
def segConsume (w : World) (s : SegFile) (oldest2 : Nat)
    (gc : PassState × Option String) : StepRes :=
  match gc.2 with
  | some m => StepRes.fail gc.1 m
  | none =>
    if oldest2 = 0 then
      match removeFile w gc.1 s DelSite.consumed with
      | Except.error m => StepRes.fail gc.1 m
      | Except.ok st7 =>
        StepRes.next { st7 with ret := ProcessStatus.PROCESS_CONTINUE,
                                completed := st7.completed + 1 }
    else
      StepRes.next { gc.1 with ret := ProcessStatus.PROCESS_CONTINUE,
                               completed := gc.1.completed + 1 }

/-- The tail of a segment replay after a successful block stream
(lines 831-881): complete the checkpoint, garbage-collect the queue, and
consume or preserve the segment. -/
def segFinish (w : World) (queue : List SegFile) (s : SegFile)
    (cf2 : ControlFile) (st4 : PassState) (org_oldest : Nat) : StepRes :=
  let seq := s.header.hdr_sequence
  let cf3 := saveComplete cf2 seq st4.trans
  let st5 := { st4 with ctls := updateCtl st4.ctls s.header.hdr_guid cf3.disk }
  let oldest2 := getOldestSequence st5.trans
  let st6 := { st5 with next := seq + 1 }
  segConsume w s oldest2 (segGC w queue seq org_oldest oldest2 st6)

/-- The replay of one segment that reached the open (lines 760-829):
open, verify the header re-read, stream the blocks, then finish through
`segFinish`. -/
def segReplay (w : World) (queue : List SegFile) (st : PassState) (s : SegFile)
    (cf : ControlFile) (ls lo lsO loO : Nat) (resetF : Bool)
    (org_oldest : Nat) : StepRes :=
  match s.replayOpen with
  | OpenRes.denied => StepRes.stop st
  | OpenRes.failed =>
    StepRes.fail st ("Log file " ++ toString s.name ++ " open failed")
  | OpenRes.ok =>
    if s.changedAtReplay then
      StepRes.fail st ("Log file " ++ toString s.name ++ " was unexpectedly changed")
    else
      let r := blockLoop w s.header.hdr_sequence s.header.hdr_length ls lo lsO loO
                 resetF w.replicaSeq s.blocks SIZEOF_SEGMENT_HEADER cf st
      let st4 := { r.2.1 with ctls := updateCtl r.2.1.ctls s.header.hdr_guid r.1.disk }
      match r.2.2.2 with
      | some m => StepRes.fail st4 m
      | none => segFinish w queue s r.1 st4 org_oldest

/-- The retention threshold (lines 741-742). -/
def thresholdOf (oldest lo ls : Nat) : Nat :=
  if oldest ≠ 0 then oldest else if lo ≠ 0 then ls else ls + 1

/-- The first-segment handshake (lines 751-752): the expected sequence is
set once per pass. -/
def nextSeq (restart : Bool) (cur threshold ls : Nat) : Nat :=
  if cur = 0 then (if restart then threshold else ls + 1) else cur

/-- The middle of one segment iteration (lines 739-758): retention
threshold, first-segment handshake, gap check and skip-ahead, then the
replay itself. -/
def segMid (w : World) (restart : Bool) (queue : List SegFile) (st : PassState)
    (s : SegFile) (cf : ControlFile) (ls lo lsO loO : Nat) (resetF : Bool) : StepRes :=
  let seq := s.header.hdr_sequence
  let oldest := getOldestSequence st.trans
  let threshold := thresholdOf oldest lo ls
  if seq < threshold then
    match removeFile w st s DelSite.threshold with
    | Except.error m => StepRes.fail st m
    | Except.ok st' => StepRes.next st'
  else
    let nxt := nextSeq restart st.next threshold ls
    let st2 := { st with next := nxt }
    if nxt < seq then
      StepRes.fail st2 ("Required segment " ++ toString nxt ++ " is missing")
    else if seq < nxt then StepRes.next st2
    else segReplay w queue st2 s cf ls lo lsO loO resetF oldest

/-- One iteration of the replay loop (lines 708-882): open the control
file, connect to the replica, fast-forward, detect a replica reset, and
hand over to `segMid`. -/
def processSeg (w : World) (restart : Bool) (queue : List SegFile)
    (st : PassState) (s : SegFile) : StepRes :=
  let g := s.header.hdr_guid
  let seq := s.header.hdr_sequence
  match ctlOpen (lookupCtl st.ctls g) seq st.trans with
  | Except.error m => StepRes.fail st m
  | Except.ok (cf0, trans0) =>
    let st1 := { st with ctls := updateCtl st.ctls g cf0.disk, trans := trans0 }
    let last_sequence := cf0.mem.sequence
    let last_offset := cf0.mem.offset
    let db_sequence := w.replicaSeq
    let last_db_sequence := cf0.mem.db_sequence
    if seq ≤ db_sequence then
      match removeFile w st1 s DelSite.fastForward with
      | Except.error m => StepRes.fail st1 m
      | Except.ok st' => StepRes.next st'
    else
      if db_sequence = last_db_sequence then
        segMid w restart queue st1 s cf0 last_sequence last_offset
          last_sequence last_offset false
      else
        let cfA := saveDbSequence cf0 db_sequence
        let cfB := saveComplete cfA db_sequence []
        let st2 := { st1 with trans := [], ctls := updateCtl st1.ctls g cfB.disk }
        segMid w restart queue st2 s cfB db_sequence 0
          last_sequence last_offset true

/-- The replay loop over the queue. -/
def segLoop (w : World) (restart : Bool) (queue : List SegFile) :
    List SegFile → PassState → PassState × Option String
  | [], st => (st, none)
  | s :: rest, st =>
    match processSeg w restart queue st s with
    | StepRes.next st' => segLoop w restart queue rest st'
    | StepRes.stop st' => (st', none)
    | StepRes.fail st' m => (st', some m)

/-- The `catch` block of `process_archive` (lines 884-906): the pass result
is `PROCESS_ERROR`, and the message is logged through `Target::logError`
only when it does not contain `"Replication"` and differs from the last
message logged for the target. -/
def finishError (w : World) (st : PassState) (m : String) : PassResult :=
  let doLog := !hasSub m "Replication" && !(m == w.lastError)
  { status := ProcessStatus.PROCESS_ERROR, errMsg := some m,
    logged := if doLog then [m] else [],
    lastError := if doLog then m else w.lastError,
    deletions := st.deletions, applies := st.applies,
    spAssertOk := st.spAssertOk, ctls := st.ctls, completed := st.completed }

/-- Assemble the pass result: an exception goes through the catch block,
otherwise the pass reports its accumulated state. -/
def passOut (w : World) (st : PassState) (err : Option String) : PassResult :=
  match err with
  | some m => finishError w st m
  | none =>
    { status := st.ret, errMsg := none, logged := [], lastError := w.lastError,
      deletions := st.deletions, applies := st.applies,
      spAssertOk := st.spAssertOk, ctls := st.ctls, completed := st.completed }

/-- `process_archive`: one full pass for one target. -/
def process_archive (w : World) : PassResult :=
  let sc := scanLoop w w.files [] [] []
  let st0 : PassState := { ctls := w.ctls, trans := [], next := 0,
                           ret := ProcessStatus.PROCESS_SUSPEND, completed := 0,
                           removed := sc.2.2.1, deletions := sc.2.1, applies := [],
                           spAssertOk := true }
  match sc.2.2.2 with
  | some m => passOut w st0 (some m)
  | none =>
    if sc.1.isEmpty then passOut w st0 none
    else
      let r := segLoop w (!w.connected) sc.1 sc.1 st0
      passOut w r.1 r.2

/-- The worker's sleep choice after a pass (`process_thread`, lines
935-942): idle backoff after `PROCESS_SUSPEND`, error backoff otherwise
(a `PROCESS_CONTINUE` pass loops without sleeping and never reaches this). -/
def workerTimeout (ret : ProcessStatus) (idle err : Nat) : Nat :=
  if ret = ProcessStatus.PROCESS_SUSPEND then idle else err

/-! ## Predicates used by the claim statements -/

/-- The deletion-safety condition of the spec (P4): a segment file may be
deleted only if its sequence is at most the replica's reported
`db_sequence`, or it is fully replayed (per the stored control-file cursor)
and its sequence is strictly below the minimum sequence in the active set
(with an empty active set, fully replayed alone suffices). -/
def p4 (d : Deletion) : Bool :=
  decide (d.seq ≤ d.dbSeq) ||
    ((decide (d.seq < d.ctlSeq) || (decide (d.seq = d.ctlSeq) && decide (d.ctlOff = 0))) &&
     (d.active.isEmpty || decide (d.seq < getOldestSequence d.active)))

/-- The dispatch condition the code uses for a recorded block: rewind is
computed from the `last_sequence`/`last_offset` locals, which are the
control-file values at segment open unless the replica-reset branch ran,
in which case they are `db_sequence` and 0. -/
def evCode (e : ApplyEv) : Bool :=
  let ls := if e.reset then e.db else e.lsOpen
  let lo := if e.reset then 0 else e.loOpen
  !(decide (e.seq < ls ∨ (e.seq = ls ∧ (lo = 0 ∨ e.tot < lo)))) ||
    (e.tra == 0) || existTxn e.active e.tra

/-- The dispatch condition exactly as the claim words it: rewind computed
from the control-file values taken at segment open. -/
def evSpec (e : ApplyEv) : Bool :=
  !(decide (e.seq < e.lsOpen ∨ (e.seq = e.lsOpen ∧ (e.loOpen = 0 ∨ e.tot < e.loOpen)))) ||
    (e.tra == 0) || existTxn e.active e.tra

/-- Every transaction of the list originates in a positive sequence not
beyond a bound. -/
def transBound (l : TransactionList) (s : Nat) : Prop :=
  ∀ t ∈ l, 0 < t.sequence ∧ t.sequence ≤ s

/-- The in-memory header of an open control file agrees with the header on
disk (true by construction: every write flushes `m_data`). -/
def cfSync (c : ControlFile) : Prop :=
  c.disk.sequence = c.mem.sequence ∧ c.disk.offset = c.mem.offset ∧
  c.disk.db_sequence = c.mem.db_sequence ∧ c.disk.txn_count = c.mem.txn_count

/-- Well-formedness of a stored control file: the meaningful transaction
records carry positive originating sequences not beyond the stored
sequence (the spec's invariant 3, plus the positivity asserted by
`getOldestSequence`). -/
def ctlWFb (c : StoredCtl) : Bool :=
  (c.records.take c.txn_count).all fun t =>
    decide (0 < t.sequence) && decide (t.sequence ≤ c.sequence)

/-- Well-formedness of the stored control file of a GUID (vacuous if none). -/
def ctlsWF (ctls : List (Nat × StoredCtl)) (g : Nat) : Bool :=
  match lookupCtl ctls g with
  | some c => ctlWFb c
  | none => true

/-- The stored control file of a GUID records no partial offset
(vacuous if none). -/
def ctlsOff0 (ctls : List (Nat × StoredCtl)) (g : Nat) : Bool :=
  match lookupCtl ctls g with
  | some c => c.offset == 0
  | none => true

/-- The stored sequence of a GUID's control file (0 if none). -/
def diskSeq (ctls : List (Nat × StoredCtl)) (g : Nat) : Nat :=
  match lookupCtl ctls g with
  | some c => c.sequence
  | none => 0

/-- The stored offset of a GUID's control file (0 if none). -/
def diskOff (ctls : List (Nat × StoredCtl)) (g : Nat) : Nat :=
  match lookupCtl ctls g with
  | some c => c.offset
  | none => 0

/-- The inductive invariant of the replay loop for a single-source target
with GUID `g`: the in-memory active set and the stored snapshot are
well-formed, every recorded non-scan deletion satisfied the deletion-safety
condition, every recorded dispatch decision matches the code's rewind rule,
no `savePartial` assertion has failed, and the expected-next-sequence
bookkeeping guarantees a clean offset whenever a segment beyond the stored
cursor is about to be replayed. -/
def InvAll (g : Nat) (restart : Bool) (st : PassState) : Prop :=
  transBound st.trans (diskSeq st.ctls g) ∧
  ctlsWF st.ctls g = true ∧
  (∀ d ∈ st.deletions, d.site ≠ DelSite.scanFree → p4 d = true) ∧
  (∀ e ∈ st.applies, e.applied = evCode e) ∧
  st.spAssertOk = true ∧
  (st.next = 0 → restart = false → diskOff st.ctls g = 0) ∧
  (st.next ≠ 0 → diskSeq st.ctls g < st.next → diskOff st.ctls g = 0)

/-- The weak part of the invariant that survives into an aborted or
broken-off pass. -/
def InvOut (st : PassState) : Prop :=
  (∀ d ∈ st.deletions, d.site ≠ DelSite.scanFree → p4 d = true) ∧
  (∀ e ∈ st.applies, e.applied = evCode e) ∧
  st.spAssertOk = true

/-! ## Concrete worlds for counterexamples and witnesses -/

/-- A valid segment header. -/
def mkHdr (state guid seq len : Nat) : SegmentHeader :=
  { hdr_signature := LOG_SIGNATURE, hdr_version := LOG_CURRENT_VERSION,
    hdr_state := state, hdr_protocol := PROTOCOL_VERSION1,
    hdr_guid := guid, hdr_sequence := seq, hdr_length := len }

/-- A directory holding one `FREE`-state segment with sequence 5 while the
replica reports sequence 0 and nothing was ever replayed: the scan deletes
it on sight. -/
def cexW1 : World :=
  { cfg := { sourceGuid := some 1, applyIdleTimeout := 10, applyErrorTimeout := 20 },
    files := [{ name := 50, tmpName := false, scanOpen := OpenRes.ok,
                replayOpen := OpenRes.ok, size := 48,
                header := mkHdr SEGMENT_STATE_FREE 1 5 48,
                changedAtReplay := false, blocks := [] }],
    ctls := [], replicaSeq := 0, connected := false, lastError := "",
    applyOk := true, applyErrMsg := "apply failed" }

/-- A control file at sequence 10 whose replica was reset to sequence 5:
replaying segment 6 then runs with the reset `last_sequence = 5`, not the
value 10 read at segment open. -/
def cexW2 : World :=
  { cfg := { sourceGuid := some 1, applyIdleTimeout := 10, applyErrorTimeout := 20 },
    files := [{ name := 60, tmpName := false, scanOpen := OpenRes.ok,
                replayOpen := OpenRes.ok, size := 72,
                header := mkHdr SEGMENT_STATE_FULL 1 6 72,
                changedAtReplay := false,
                blocks := [{ traNumber := 42, flags := 0, dataLength := 4, metaLength := 0 }] }],
    ctls := [(1, { signature := CTL_SIGNATURE, version := CTL_VERSION1, txn_count := 0,
                   sequence := 10, offset := 0, db_sequence := 7, records := [] })],
    replicaSeq := 5, connected := false, lastError := "",
    applyOk := true, applyErrMsg := "apply failed" }

/-- A control file mid-segment: sequence 6, offset 100. -/
def cexCtl6 : ControlFile :=
  { mem := { txn_count := 0, sequence := 6, offset := 100, db_sequence := 0 },
    disk := { signature := CTL_SIGNATURE, version := CTL_VERSION1, txn_count := 0,
              sequence := 6, offset := 100, db_sequence := 0, records := [] } }

/-- The stored control file of the gap scenario: segment 7 fully applied. -/
def gapCtl : StoredCtl :=
  { signature := CTL_SIGNATURE, version := CTL_VERSION1, txn_count := 0,
    sequence := 7, offset := 0, db_sequence := 0, records := [] }

/-- Segment 9 present while segment 8 is expected. -/
def gapF9 : SegFile :=
  { name := 90, tmpName := false, scanOpen := OpenRes.ok, replayOpen := OpenRes.ok,
    size := 48, header := mkHdr SEGMENT_STATE_FULL 1 9 48,
    changedAtReplay := false, blocks := [] }

/-- The world of the gap scenario (spec boundary scenario 3). -/
def gapW : World :=
  { cfg := { sourceGuid := some 1, applyIdleTimeout := 10, applyErrorTimeout := 20 },
    files := [gapF9], ctls := [(1, gapCtl)], replicaSeq := 0, connected := false,
    lastError := "", applyOk := true, applyErrMsg := "apply failed" }

/-- The pass state at the head of the queue in the gap scenario. -/
def gapSt0 : PassState :=
  { ctls := [(1, gapCtl)], trans := [], next := 0,
    ret := ProcessStatus.PROCESS_SUSPEND, completed := 0, removed := [],
    deletions := [], applies := [], spAssertOk := true }

/-- Segment 8, openable during the scan but sharing-locked at replay. -/
def c10F8 : SegFile :=
  { name := 80, tmpName := false, scanOpen := OpenRes.ok, replayOpen := OpenRes.denied,
    size := 48, header := mkHdr SEGMENT_STATE_FULL 1 8 48,
    changedAtReplay := false, blocks := [] }

/-- The pass state at the head of the queue in the sharing-violation
scenario. -/
def c10St0 : PassState :=
  { ctls := [(1, gapCtl)], trans := [], next := 0,
    ret := ProcessStatus.PROCESS_SUSPEND, completed := 0, removed := [],
    deletions := [], applies := [], spAssertOk := true }

/-- The world of the sharing-violation scenario. -/
def c10W : World :=
  { cfg := { sourceGuid := some 1, applyIdleTimeout := 10, applyErrorTimeout := 20 },
    files := [c10F8], ctls := [(1, gapCtl)], replicaSeq := 0, connected := false,
    lastError := "", applyOk := true, applyErrMsg := "apply failed" }

/-- A clean steady-state world: no control file yet, one full segment with
sequence 1 and a single committed block. -/
def c8W : World :=
  { cfg := { sourceGuid := some 1, applyIdleTimeout := 10, applyErrorTimeout := 20 },
    files := [{ name := 10, tmpName := false, scanOpen := OpenRes.ok,
                replayOpen := OpenRes.ok, size := 72,
                header := mkHdr SEGMENT_STATE_FULL 1 1 72,
                changedAtReplay := false,
                blocks := [{ traNumber := 5, flags := 0, dataLength := 4, metaLength := 0 }] }],
    ctls := [], replicaSeq := 0, connected := false, lastError := "",
    applyOk := true, applyErrMsg := "apply failed" }

/-- A world whose only segment (sequence 3) is behind the replica's
reported sequence 5: it is deleted by fast-forward. -/
def ffW : World :=
  { cfg := { sourceGuid := some 1, applyIdleTimeout := 10, applyErrorTimeout := 20 },
    files := [{ name := 30, tmpName := false, scanOpen := OpenRes.ok,
                replayOpen := OpenRes.ok, size := 48,
                header := mkHdr SEGMENT_STATE_FULL 1 3 48,
                changedAtReplay := false, blocks := [] }],
    ctls := [], replicaSeq := 5, connected := false, lastError := "",
    applyOk := true, applyErrMsg := "apply failed" }

/-- The pass state carried by any step outcome. -/
def stepState : StepRes → PassState
  | StepRes.next st => st
  | StepRes.stop st => st
  | StepRes.fail st _ => st

/-- Every non-scan deletion recorded so far satisfied the deletion-safety
condition P4. -/
def delsOK (st : PassState) : Prop :=
  ∀ d ∈ st.deletions, d.site ≠ DelSite.scanFree → p4 d = true

/-- The working invariant of the replay loop for the single source GUID
`g`: the active set is bounded by the stored sequence, the stored snapshot
is well-formed, and the expected-next-sequence bookkeeping guarantees a
clean stored offset whenever the loop is about to move past the stored
cursor (`restart` is the at-entry disconnect flag that lets the handshake
pick the retention threshold). -/
def InvW (g : Nat) (restart : Bool) (st : PassState) : Prop :=
  transBound st.trans (diskSeq st.ctls g) ∧
  ctlsWF st.ctls g = true ∧
  (st.next = 0 → restart = false → diskOff st.ctls g = 0) ∧
  (st.next ≠ 0 → diskSeq st.ctls g < st.next → diskOff st.ctls g = 0)

/-- What one segment iteration guarantees: the recorded deletions stay
safe and no checkpoint assertion failed, whatever the outcome; and if the
loop goes on, the working invariant holds again. -/
def stepOK (g : Nat) (restart : Bool) (r : StepRes) : Prop :=
  delsOK (stepState r) ∧ (stepState r).spAssertOk = true ∧
  (∀ st', r = StepRes.next st' → InvW g restart st')

/-- The stored control file of source 1 in the mixed-source scenario:
segment 5 fully applied. -/
def mixCtlA : StoredCtl :=
  { signature := CTL_SIGNATURE, version := CTL_VERSION1, txn_count := 0,
    sequence := 5, offset := 0, db_sequence := 0, records := [] }

/-- The stored control file of source 2 in the mixed-source scenario: a
crash left it mid-segment at (6, 50). -/
def mixCtlB : StoredCtl :=
  { signature := CTL_SIGNATURE, version := CTL_VERSION1, txn_count := 0,
    sequence := 6, offset := 50, db_sequence := 0, records := [] }

/-- Two sources share one directory and the target accepts any GUID
(`sourceGuid = none`, the spec's "zero means accept any").  The queue
sorts to [A6 (guid 1), B6 (guid 2), B7 (guid 2)].  Completing A6 raises
the pass-global expected sequence to 7, which skips B6; B7 is then
replayed against source 2's cursor (6, 50), and its first `savePartial`
call enters the sequence-advance branch with a nonzero stored offset. -/
def mixW : World :=
  { cfg := { sourceGuid := none, applyIdleTimeout := 10, applyErrorTimeout := 20 },
    files := [{ name := 26, tmpName := false, scanOpen := OpenRes.ok,
                replayOpen := OpenRes.ok, size := 48,
                header := mkHdr SEGMENT_STATE_FULL 2 6 48,
                changedAtReplay := false, blocks := [] },
              { name := 16, tmpName := false, scanOpen := OpenRes.ok,
                replayOpen := OpenRes.ok, size := 48,
                header := mkHdr SEGMENT_STATE_FULL 1 6 48,
                changedAtReplay := false, blocks := [] },
              { name := 27, tmpName := false, scanOpen := OpenRes.ok,
                replayOpen := OpenRes.ok, size := 72,
                header := mkHdr SEGMENT_STATE_FULL 2 7 72,
                changedAtReplay := false,
                blocks := [{ traNumber := 0, flags := 0, dataLength := 4, metaLength := 0 }] }],
    ctls := [(1, mixCtlA), (2, mixCtlB)], replicaSeq := 0, connected := true,
    lastError := "", applyOk := true, applyErrMsg := "apply failed" }

/-! ## Basic lemmas -/

theorem take_len_append (t r : TransactionList) : (t ++ r).take t.length = t := by
  induction t with
  | nil => rfl
  | cons a as ih => simp [ih]

theorem saveDbSequence_mem (c : ControlFile) (db : Nat) :
    (saveDbSequence c db).mem.sequence = c.mem.sequence ∧
    (saveDbSequence c db).mem.offset = c.mem.offset := by
  simp [saveDbSequence, writeHeader]

theorem savePartial_mem_sequence (c : ControlFile) (s o : Nat) (t : TransactionList) :
    (savePartial c s o t).mem.sequence = max c.mem.sequence s := by
  unfold savePartial
  split_ifs with h1 h2
  · simp [writeFull]; omega
  · simp [writeFull]; omega
  · simp; omega

theorem saveComplete_mem_sequence (c : ControlFile) (s : Nat) (t : TransactionList) :
    (saveComplete c s t).mem.sequence = max c.mem.sequence s := by
  unfold saveComplete
  split_ifs with h1
  · simp [writeFull]; omega
  · simp; omega


/-! ## Claim C5: `savePartial` applies exactly when it advances -/

/-- C5: `savePartial(seq, offset, active_set)` updates the stored state and
persists it (header and active set) exactly when `seq` exceeds the stored
sequence or equals it with a larger offset; in every other case the call
changes nothing in memory or on disk. -/
theorem c5_savePartial_applies_iff (c : ControlFile) (sequence offset : Nat)
    (t : TransactionList) :
    (c.mem.sequence < sequence ∨ (sequence = c.mem.sequence ∧ c.mem.offset < offset) →
      savePartial c sequence offset t =
        writeFull c { txn_count := t.length, sequence := max c.mem.sequence sequence,
                      offset := offset, db_sequence := c.mem.db_sequence } t) ∧
    (¬(c.mem.sequence < sequence ∨ (sequence = c.mem.sequence ∧ c.mem.offset < offset)) →
      savePartial c sequence offset t = c) := by
  constructor
  · intro h
    unfold savePartial
    rcases h with h | ⟨h1, h2⟩
    · rw [if_pos h]
      have hm : max c.mem.sequence sequence = sequence := by omega
      rw [hm]
    · have hn : ¬ c.mem.sequence < sequence := by omega
      rw [if_neg hn, if_pos ⟨h1, h2⟩]
      have hm : max c.mem.sequence sequence = c.mem.sequence := by omega
      rw [hm]
  · intro h
    push_neg at h
    unfold savePartial
    rw [if_neg (by omega)]
    rw [if_neg]
    intro ⟨h1, h2⟩
    exact absurd h2 (by omega)

/-- Witness for C5 at a concrete control file: the cursor `(6, 100)`
advances to `(7, 200)`. -/
theorem c5_witness :
    savePartial cexCtl6 7 200 [] =
      writeFull cexCtl6 { txn_count := ([] : TransactionList).length,
                          sequence := max cexCtl6.mem.sequence 7, offset := 200,
                          db_sequence := cexCtl6.mem.db_sequence } [] :=
  (c5_savePartial_applies_iff cexCtl6 7 200 []).1 (Or.inl (by decide))

/-! ## Claim C6: monotonicity of the control-file cursor -/

theorem applyCtlOp_sequence_mono (c : ControlFile) (op : CtlOp) :
    c.mem.sequence ≤ (applyCtlOp c op).mem.sequence := by
  cases op with
  | saveDb db => simp [applyCtlOp, saveDbSequence, writeHeader]
  | savePart s o t => simp only [applyCtlOp]; rw [savePartial_mem_sequence]; omega
  | saveComp s t => simp only [applyCtlOp]; rw [saveComplete_mem_sequence]; omega

/-- The claim's lexicographic reading of "the pair `(sequence, offset)`
never moves backwards" fails: completing a segment resets the offset to 0
at an unchanged sequence.  Concretely, `saveComplete(6, {})` on the cursor
`(6, 100)` moves it to `(6, 0)`. -/
theorem c6_counterexample :
    ¬ (∀ (c : ControlFile) (op : CtlOp),
        c.mem.sequence < (applyCtlOp c op).mem.sequence ∨
        (c.mem.sequence = (applyCtlOp c op).mem.sequence ∧
         c.mem.offset ≤ (applyCtlOp c op).mem.offset)) := by
  intro h
  have hx := h cexCtl6 (CtlOp.saveComp 6 [])
  revert hx
  decide

/-- C6 (amended): across any sequence of control-file writes the stored
sequence never decreases; and each single write either strictly increases
the sequence, or keeps it and either keeps the offset from decreasing or
resets it to 0 (which records completion of that segment, not a loss of
progress). -/
theorem c6_sequence_never_decreases (c : ControlFile) (ops : List CtlOp) (op : CtlOp) :
    c.mem.sequence ≤ (ops.foldl applyCtlOp c).mem.sequence ∧
    (c.mem.sequence < (applyCtlOp c op).mem.sequence ∨
      ((applyCtlOp c op).mem.sequence = c.mem.sequence ∧
        (c.mem.offset ≤ (applyCtlOp c op).mem.offset ∨ (applyCtlOp c op).mem.offset = 0))) := by
  constructor
  · induction ops generalizing c with
    | nil => exact Nat.le_refl _
    | cons o rest ih =>
      exact Nat.le_trans (applyCtlOp_sequence_mono c o) (ih (applyCtlOp c o))
  · cases op with
    | saveDb db =>
      right
      simp [applyCtlOp, saveDbSequence, writeHeader]
    | savePart s o t =>
      simp only [applyCtlOp]
      unfold savePartial
      split_ifs with h1 h2
      · left; simp [writeFull]; omega
      · right; simp [writeFull]; omega
      · right; simp
    | saveComp s t =>
      simp only [applyCtlOp]
      unfold saveComplete
      split_ifs with h1
      · simp [writeFull]; omega
      · right; simp

/-! ## Claim C7: `saveComplete` round-trips through the open path -/

theorem ctlOpen_writeFull (c : ControlFile) (m : CtlMem) (t : TransactionList)
    (hint : Nat) (tr : TransactionList) (hcnt : m.txn_count = t.length) :
    ctlOpen (some (writeFull c m t).disk) hint tr =
      Except.ok ({ mem := { txn_count := m.txn_count, sequence := m.sequence,
                            offset := m.offset, db_sequence := m.db_sequence },
                   disk := (writeFull c m t).disk },
                 ctlTrans (writeFull c m t).disk tr) := by
  simp only [ctlOpen, writeFull]
  split_ifs with h1 h2
  · exfalso
    revert h2
    simp [hcnt]
  · rfl
  · exact absurd ⟨by trivial, by trivial⟩ h1

theorem ctlTrans_writeFull (c : ControlFile) (m : CtlMem) (t : TransactionList)
    (hcnt : m.txn_count = t.length) : ctlTrans (writeFull c m t).disk [] = t := by
  unfold ctlTrans writeFull
  by_cases ht : t.length = 0
  · simp [hcnt, ht, List.length_eq_zero.mp ht]
  · simp [hcnt, ht, take_len_append]

/-- C7: when `saveComplete(seq, S)` applies (`seq` at least the stored
sequence), re-opening the resulting control file with a fresh transaction
list yields exactly the cursor `(seq, 0)` and the active set `S`. -/
theorem c7_saveComplete_roundtrip (c : ControlFile) (sequence hint : Nat)
    (t : TransactionList) (h : c.mem.sequence ≤ sequence) :
    ctlOpen (some (saveComplete c sequence t).disk) hint [] =
      Except.ok ({ mem := { txn_count := t.length, sequence := sequence, offset := 0,
                            db_sequence := c.mem.db_sequence },
                   disk := (saveComplete c sequence t).disk }, t) := by
  have hc : saveComplete c sequence t =
      writeFull c { txn_count := t.length, sequence := sequence, offset := 0,
                    db_sequence := c.mem.db_sequence } t := by
    unfold saveComplete
    rw [if_pos h]
  rw [hc, ctlOpen_writeFull c _ t hint [] rfl, ctlTrans_writeFull c _ t rfl]

/-- Witness for C7: completing at sequence 7 with one active transaction
round-trips through the open path. -/
theorem c7_witness :
    ctlOpen (some (saveComplete cexCtl6 7 [⟨3, 7⟩]).disk) 0 [] =
      Except.ok ({ mem := { txn_count := ([⟨3, 7⟩] : TransactionList).length,
                            sequence := 7, offset := 0,
                            db_sequence := cexCtl6.mem.db_sequence },
                   disk := (saveComplete cexCtl6 7 [⟨3, 7⟩]).disk }, [⟨3, 7⟩]) :=
  c7_saveComplete_roundtrip cexCtl6 7 0 [⟨3, 7⟩] (by decide)

/-! ## Claim C4: active-set maintenance by the block dispatcher -/

/-- C4: after a successful dispatch (or skip) of a block, the active set is
updated as follows: an `END_TRANS` flag with a nonzero transaction id
removes that id (in rewind and non-rewind alike); `END_TRANS` with id 0
clears the whole set only when not in rewind; a `BEGIN_TRANS` flag (with no
`END_TRANS`) inserts `(transaction_id, current segment sequence)` only when
not in rewind and not already present; otherwise the set is unchanged. -/
theorem c4_active_set_maintenance (applyOk : Bool) (sequence : Nat)
    (transactions : TransactionList) (b : Block) (rewind : Bool)
    (hs : (replicate applyOk sequence transactions b rewind).2.2 = true) :
    (b.flags &&& BLOCK_END_TRANS ≠ 0 ∧ b.traNumber ≠ 0 →
        (replicate applyOk sequence transactions b rewind).1 =
          removeTxn transactions b.traNumber) ∧
    (b.flags &&& BLOCK_END_TRANS ≠ 0 ∧ b.traNumber = 0 →
        (replicate applyOk sequence transactions b rewind).1 =
          if rewind then transactions else []) ∧
    (b.flags &&& BLOCK_END_TRANS = 0 ∧ b.flags &&& BLOCK_BEGIN_TRANS ≠ 0 →
        (replicate applyOk sequence transactions b rewind).1 =
          if !rewind && !existTxn transactions b.traNumber then
            addTxn transactions ⟨b.traNumber, sequence⟩
          else transactions) ∧
    (b.flags &&& BLOCK_END_TRANS = 0 ∧ b.flags &&& BLOCK_BEGIN_TRANS = 0 →
        (replicate applyOk sequence transactions b rewind).1 = transactions) := by
  unfold replicate at hs ⊢
  by_cases hfail : ((!rewind || b.traNumber == 0 || existTxn transactions b.traNumber) &&
      !applyOk) = true
  · rw [if_pos hfail] at hs
    exact absurd hs (by simp)
  · rw [if_neg hfail] at hs ⊢
    refine ⟨fun ⟨h1, h2⟩ => ?_, fun ⟨h1, h2⟩ => ?_, fun ⟨h1, h2⟩ => ?_,
            fun ⟨h1, h2⟩ => ?_⟩
    · simp only [if_pos h1, if_pos h2]
    · simp only [if_pos h1, if_neg (by simp [h2] : ¬ b.traNumber ≠ 0)]
      cases rewind <;> simp
    · simp only [if_neg (by simp [h1] : ¬ b.flags &&& BLOCK_END_TRANS ≠ 0), if_pos h2]
    · simp only [if_neg (by simp [h1] : ¬ b.flags &&& BLOCK_END_TRANS ≠ 0),
                 if_neg (by simp [h2] : ¬ b.flags &&& BLOCK_BEGIN_TRANS ≠ 0)]

/-- Witness for C4: a committed transaction 7 is removed from the set by
its `END_TRANS` block. -/
theorem c4_witness :
    (replicate true 5 [⟨7, 4⟩] ⟨7, BLOCK_END_TRANS, 1, 0⟩ false).1 =
      removeTxn [⟨7, 4⟩] 7 :=
  (c4_active_set_maintenance true 5 [⟨7, 4⟩] ⟨7, BLOCK_END_TRANS, 1, 0⟩ false
    (by decide)).1 ⟨by decide, by decide⟩

/-! ## Claim C9: error logging on a failed pass -/

theorem passOut_errMsg (w : World) (st : PassState) (e : Option String)
    (m : String) (h : (passOut w st e).errMsg = some m) :
    e = some m ∧ passOut w st e = finishError w st m := by
  cases e with
  | none => simp [passOut] at h
  | some m1 =>
    simp only [passOut] at h ⊢
    simp only [finishError] at h
    have hm : m1 = m := by simpa using h
    subst hm
    exact ⟨rfl, rfl⟩

theorem process_archive_err (w : World) (m : String)
    (h : (process_archive w).errMsg = some m) :
    ∃ st, process_archive w = finishError w st m := by
  simp only [process_archive] at h ⊢
  revert h
  rcases hsc : (scanLoop w w.files [] [] []).2.2.2 with _ | m1 <;> intro h
  · dsimp only [] at h ⊢
    by_cases hq : (scanLoop w w.files [] [] []).1.isEmpty = true
    · rw [if_pos hq] at h ⊢
      exact ⟨_, (passOut_errMsg w _ _ m h).2⟩
    · rw [if_neg hq] at h ⊢
      exact ⟨_, (passOut_errMsg w _ _ m h).2⟩
  · exact ⟨_, (passOut_errMsg w _ _ m h).2⟩

/-- C9: when a pass fails with an exception carrying message `m`,
`process_archive` returns `PROCESS_ERROR`, and `m` is logged exactly when
it does not contain `"Replication"` and differs from the last message
logged for the target (which is updated only in that case). -/
theorem c9_error_logging (w : World) (m : String)
    (h : (process_archive w).errMsg = some m) :
    (process_archive w).status = ProcessStatus.PROCESS_ERROR ∧
    (process_archive w).logged =
      (if !hasSub m "Replication" && !(m == w.lastError) then [m] else []) ∧
    (process_archive w).lastError =
      (if !hasSub m "Replication" && !(m == w.lastError) then m else w.lastError) := by
  obtain ⟨st, hst⟩ := process_archive_err w m h
  rw [hst]
  unfold finishError
  by_cases hl : (!hasSub m "Replication" && !(m == w.lastError)) = true
  · simp [hl]
  · simp [hl]

/-- Witness for C9: the gap world fails with "Required segment 8 is
missing", which is logged since it is new and free of "Replication". -/
theorem c9_witness :
    (process_archive gapW).status = ProcessStatus.PROCESS_ERROR ∧
    (process_archive gapW).logged =
      (if !hasSub "Required segment 8 is missing" "Replication" &&
          !("Required segment 8 is missing" == gapW.lastError) then
        ["Required segment 8 is missing"] else []) ∧
    (process_archive gapW).lastError =
      (if !hasSub "Required segment 8 is missing" "Replication" &&
          !("Required segment 8 is missing" == gapW.lastError) then
        "Required segment 8 is missing" else gapW.lastError) :=
  c9_error_logging gapW "Required segment 8 is missing" (by decide)

/-! ## Counterexamples to claims C1 and C2 as stated -/

/-- C1 as stated is false: the scan deletes a `FREE`-state segment on
sight.  In `cexW1` the deleted segment has sequence 5, the replica reports
0, and nothing was ever replayed. -/
theorem c1_counterexample :
    ¬ (∀ d ∈ (process_archive cexW1).deletions, p4 d = true) := by
  decide

/-- C2 as stated is false: after a replica reset the rewind flag is
computed from `last_sequence = db_sequence, last_offset = 0`, not from the
control-file values read at segment open.  In `cexW2` the control file
says 10 but the block of segment 6 is dispatched because the reset lowered
`last_sequence` to 5. -/
theorem c2_counterexample :
    ¬ (∀ e ∈ (process_archive cexW2).applies, e.applied = evSpec e) := by
  decide

/-! ## Claim C2 (amended): the dispatch decision for every block -/

theorem replicate_applied (applyOk : Bool) (sequence : Nat)
    (transactions : TransactionList) (b : Block) (rewind : Bool) :
    (replicate applyOk sequence transactions b rewind).2.1 =
      (!rewind || b.traNumber == 0 || existTxn transactions b.traNumber) := by
  unfold replicate
  dsimp only []
  split_ifs <;> rfl

/-- The state carried by a step outcome. -/
theorem passOut_applies (w : World) (st : PassState) (e : Option String) :
    (passOut w st e).applies = st.applies := by
  cases e <;> rfl

theorem removeFile_ok_state (w : World) (st st' : PassState) (f : SegFile)
    (site : DelSite) (h : removeFile w st f site = Except.ok st') :
    st'.applies = st.applies ∧ st'.trans = st.trans ∧ st'.ctls = st.ctls ∧
    st'.next = st.next ∧ st'.ret = st.ret ∧ st'.completed = st.completed ∧
    st'.spAssertOk = st.spAssertOk ∧
    st'.deletions = st.deletions ++ [mkDeletion site f st.ctls w.replicaSeq st.trans] := by
  unfold removeFile at h
  split_ifs at h
  simp only [Except.ok.injEq] at h
  subst h
  exact ⟨rfl, rfl, rfl, rfl, rfl, rfl, rfl, rfl⟩

theorem gcWalk_state (w : World) (thr : Nat) :
    ∀ (l : List SegFile) (st : PassState),
      (gcWalk w thr l st).1.applies = st.applies ∧
      (gcWalk w thr l st).1.trans = st.trans ∧
      (gcWalk w thr l st).1.ctls = st.ctls ∧
      (gcWalk w thr l st).1.next = st.next ∧
      (gcWalk w thr l st).1.ret = st.ret ∧
      (gcWalk w thr l st).1.completed = st.completed ∧
      (gcWalk w thr l st).1.spAssertOk = st.spAssertOk := by
  intro l
  induction l with
  | nil => intro st; exact ⟨rfl, rfl, rfl, rfl, rfl, rfl, rfl⟩
  | cons f rest ih =>
    intro st
    unfold gcWalk
    split_ifs with h1
    · exact ⟨rfl, rfl, rfl, rfl, rfl, rfl, rfl⟩
    · rcases hrf : removeFile w st f DelSite.queueGC with m | st'
      · exact ⟨rfl, rfl, rfl, rfl, rfl, rfl, rfl⟩
      · obtain ⟨ha, ht, hc, hn, hr, hcm, hs, _⟩ := removeFile_ok_state w st st' f _ hrf
        obtain ⟨ia, it, ic, inx, ir, icm, isp⟩ := ih st'
        exact ⟨ia.trans ha, it.trans ht, ic.trans hc, inx.trans hn, ir.trans hr,
               icm.trans hcm, isp.trans hs⟩

theorem blockLoop_ev (w : World) (sequence hdrLen lsL loL lsO loO : Nat)
    (resetF : Bool) (db : Nat)
    (hls : lsL = if resetF then db else lsO)
    (hlo : loL = if resetF then 0 else loO) :
    ∀ (blocks : List Block) (tot : Nat) (cf : ControlFile) (st : PassState),
      (∀ e ∈ st.applies, e.applied = evCode e) →
      ∀ e ∈ (blockLoop w sequence hdrLen lsL loL lsO loO resetF db
              blocks tot cf st).2.1.applies, e.applied = evCode e := by
  intro blocks
  induction blocks with
  | nil =>
    intro tot cf st hst
    unfold blockLoop
    split_ifs <;> exact hst
  | cons b rest ih =>
    intro tot cf st hst
    unfold blockLoop
    dsimp only []
    split_ifs with h1 h2 h3
    · -- payload block, apply failed
      intro e he
      rcases List.mem_append.mp he with he1 | he2
      · exact hst e he1
      · rw [List.mem_singleton.mp he2]
        rw [replicate_applied]
        subst hls hlo
        rfl
    · -- payload block, dispatch went through
      apply ih
      intro e he
      rcases List.mem_append.mp he with he1 | he2
      · exact hst e he1
      · rw [List.mem_singleton.mp he2]
        rw [replicate_applied]
        subst hls hlo
        rfl
    · -- zero payload
      exact ih _ _ _ hst
    · exact hst

theorem segGC_state (w : World) (queue : List SegFile) (seq org_oldest oldest2 : Nat)
    (st6 : PassState) :
    (segGC w queue seq org_oldest oldest2 st6).1.applies = st6.applies ∧
    (segGC w queue seq org_oldest oldest2 st6).1.trans = st6.trans ∧
    (segGC w queue seq org_oldest oldest2 st6).1.ctls = st6.ctls ∧
    (segGC w queue seq org_oldest oldest2 st6).1.next = st6.next ∧
    (segGC w queue seq org_oldest oldest2 st6).1.ret = st6.ret ∧
    (segGC w queue seq org_oldest oldest2 st6).1.completed = st6.completed ∧
    (segGC w queue seq org_oldest oldest2 st6).1.spAssertOk = st6.spAssertOk := by
  unfold segGC
  by_cases h1 : org_oldest ≠ 0 ∧ oldest2 ≠ org_oldest
  · rw [if_pos h1]
    dsimp only []
    rcases lbSuffix queue org_oldest with _ | ⟨f, tl⟩
    · exact ⟨rfl, rfl, rfl, rfl, rfl, rfl, rfl⟩
    · dsimp only []
      by_cases h2 : f.header.hdr_sequence = org_oldest
      · rw [if_pos h2]
        exact gcWalk_state w _ (f :: tl) st6
      · rw [if_neg h2]
        exact ⟨rfl, rfl, rfl, rfl, rfl, rfl, rfl⟩
  · rw [if_neg h1]
    exact ⟨rfl, rfl, rfl, rfl, rfl, rfl, rfl⟩

theorem segConsume_applies (w : World) (s : SegFile) (oldest2 : Nat)
    (gc : PassState × Option String) :
    (stepState (segConsume w s oldest2 gc)).applies = gc.1.applies := by
  unfold segConsume
  rcases gc with ⟨stG, e⟩
  rcases e with _ | m
  · dsimp only []
    split_ifs with h1
    · rcases hrf : removeFile w stG s DelSite.consumed with m | st7
      · rfl
      · obtain ⟨ha, _⟩ := removeFile_ok_state w stG st7 s _ hrf
        exact ha
    · rfl
  · rfl

theorem segFinish_applies (w : World) (queue : List SegFile) (s : SegFile)
    (cf2 : ControlFile) (st4 : PassState) (org_oldest : Nat) :
    (stepState (segFinish w queue s cf2 st4 org_oldest)).applies = st4.applies := by
  unfold segFinish
  rw [segConsume_applies]
  exact (segGC_state w queue _ org_oldest _ _).1

theorem segReplay_ev (w : World) (queue : List SegFile) (st : PassState)
    (s : SegFile) (cf : ControlFile) (ls lo lsO loO : Nat) (resetF : Bool)
    (org_oldest : Nat)
    (hls : ls = if resetF then w.replicaSeq else lsO)
    (hlo : lo = if resetF then 0 else loO)
    (hst : ∀ e ∈ st.applies, e.applied = evCode e) :
    ∀ e ∈ (stepState (segReplay w queue st s cf ls lo lsO loO resetF
            org_oldest)).applies, e.applied = evCode e := by
  unfold segReplay
  rcases s.replayOpen with _ | _ | _
  · -- ok
    dsimp only []
    split_ifs with hch
    · exact hst
    · have hbl := blockLoop_ev w s.header.hdr_sequence s.header.hdr_length ls lo
        lsO loO resetF w.replicaSeq hls hlo s.blocks SIZEOF_SEGMENT_HEADER cf st hst
      rcases (blockLoop w s.header.hdr_sequence s.header.hdr_length ls lo lsO loO
          resetF w.replicaSeq s.blocks SIZEOF_SEGMENT_HEADER cf st).2.2.2 with _ | m
      · dsimp only []
        intro e he
        rw [segFinish_applies] at he
        exact hbl e he
      · exact hbl
  · exact hst
  · exact hst

theorem segMid_ev (w : World) (restart : Bool) (queue : List SegFile)
    (st : PassState) (s : SegFile) (cf : ControlFile) (ls lo lsO loO : Nat)
    (resetF : Bool)
    (hls : ls = if resetF then w.replicaSeq else lsO)
    (hlo : lo = if resetF then 0 else loO)
    (hst : ∀ e ∈ st.applies, e.applied = evCode e) :
    ∀ e ∈ (stepState (segMid w restart queue st s cf ls lo lsO loO
            resetF)).applies, e.applied = evCode e := by
  unfold segMid
  dsimp only []
  split_ifs with h1 h2 h3
  · rcases hrf : removeFile w st s DelSite.threshold with m | st'
    · exact hst
    · obtain ⟨ha, _⟩ := removeFile_ok_state w st st' s _ hrf
      dsimp only [stepState]
      rw [ha]
      exact hst
  · exact hst
  · exact hst
  · exact segReplay_ev w queue _ s cf ls lo lsO loO resetF _ hls hlo hst

theorem processSeg_ev (w : World) (restart : Bool) (queue : List SegFile)
    (st : PassState) (s : SegFile)
    (hst : ∀ e ∈ st.applies, e.applied = evCode e) :
    ∀ e ∈ (stepState (processSeg w restart queue st s)).applies,
      e.applied = evCode e := by
  unfold processSeg
  dsimp only []
  rcases hco : ctlOpen (lookupCtl st.ctls s.header.hdr_guid) s.header.hdr_sequence
      st.trans with m | ⟨cf0, trans0⟩
  · exact hst
  · dsimp only []
    split_ifs with h1 h2
    · rcases hrf : removeFile w
          { st with ctls := updateCtl st.ctls s.header.hdr_guid cf0.disk,
                    trans := trans0 } s DelSite.fastForward with m | st'
      · exact hst
      · obtain ⟨ha, _⟩ := removeFile_ok_state w _ st' s _ hrf
        dsimp only [stepState]
        rw [ha]
        exact hst
    · exact segMid_ev w restart queue _ s cf0 cf0.mem.sequence cf0.mem.offset
        cf0.mem.sequence cf0.mem.offset false rfl rfl hst
    · exact segMid_ev w restart queue _ s
        (saveComplete (saveDbSequence cf0 w.replicaSeq) w.replicaSeq [])
        w.replicaSeq 0 cf0.mem.sequence cf0.mem.offset true rfl rfl hst

theorem segLoop_ev (w : World) (restart : Bool) (queue : List SegFile) :
    ∀ (l : List SegFile) (st : PassState),
      (∀ e ∈ st.applies, e.applied = evCode e) →
      ∀ e ∈ (segLoop w restart queue l st).1.applies, e.applied = evCode e := by
  intro l
  induction l with
  | nil => intro st hst; exact hst
  | cons s rest ih =>
    intro st hst
    unfold segLoop
    have hps := processSeg_ev w restart queue st s hst
    cases hpe : processSeg w restart queue st s with
    | next st' =>
      rw [hpe] at hps
      exact ih st' hps
    | stop st' =>
      rw [hpe] at hps
      exact hps
    | fail st' m =>
      rw [hpe] at hps
      exact hps

/-- C2 (amended): for every block with nonzero payload, the driver hands
the bytes to the replica's apply entry point exactly when rewind is false,
or the transaction id is 0, or the id is in the active set — where rewind
is computed from `last_sequence`/`last_offset` taken from the control file
at segment open, except that when a replica reset was detected for this
segment they are `db_sequence` and 0 instead. -/
theorem c2_dispatch_condition (w : World) :
    ∀ e ∈ (process_archive w).applies, e.applied = evCode e := by
  intro e he
  revert he
  simp only [process_archive]
  rcases hsc : (scanLoop w w.files [] [] []).2.2.2 with _ | m1 <;> intro he
  · dsimp only [] at he
    by_cases hq : (scanLoop w w.files [] [] []).1.isEmpty = true
    · rw [if_pos hq, passOut_applies] at he
      exact absurd he (List.not_mem_nil e)
    · rw [if_neg hq, passOut_applies] at he
      exact segLoop_ev w (!w.connected) _ _ _
        (fun e' he' => absurd he' (List.not_mem_nil e')) e he
  · dsimp only [] at he
    rw [passOut_applies] at he
    exact absurd he (List.not_mem_nil e)

/-- Witness for C2: the single block of the clean world is dispatched, and
the recorded decision matches the code's rewind rule. -/
theorem c2_witness :
    (⟨1, 5, 48, true, false, 0, 0, false, 0, []⟩ : ApplyEv).applied =
      evCode ⟨1, 5, 48, true, false, 0, 0, false, 0, []⟩ :=
  c2_dispatch_condition c8W ⟨1, 5, 48, true, false, 0, 0, false, 0, []⟩ (by decide)

/-! ## Claims C3 and C10: gap abort and sharing-violation break -/

theorem updateCtl_self (l : List (Nat × StoredCtl)) (k : Nat) (c : StoredCtl)
    (h : lookupCtl l k = some c) : updateCtl l k c = l := by
  induction l with
  | nil => exact absurd h (by simp [lookupCtl])
  | cons p rest ih =>
    rcases p with ⟨g, c0⟩
    unfold lookupCtl at h
    unfold updateCtl
    by_cases hg : g = k
    · rw [if_pos hg] at h
      rw [if_pos hg]
      injection h with h'
      rw [← hg, h']
    · rw [if_neg hg] at h
      rw [if_neg hg, ih h]

theorem c3_processSeg_gap (w : World) (restart : Bool) (queue : List SegFile)
    (st : PassState) (s : SegFile) (c : StoredCtl)
    (hc : lookupCtl st.ctls s.header.hdr_guid = some c)
    (hsig : c.signature = CTL_SIGNATURE)
    (hver : c.version = CTL_VERSION1)
    (hcnt : c.txn_count ≤ c.records.length)
    (hff : w.replicaSeq < s.header.hdr_sequence)
    (hdb : c.db_sequence = w.replicaSeq)
    (hth : thresholdOf (getOldestSequence (ctlTrans c st.trans)) c.offset
            c.sequence ≤ s.header.hdr_sequence)
    (hgap : nextSeq restart st.next
            (thresholdOf (getOldestSequence (ctlTrans c st.trans)) c.offset
              c.sequence) c.sequence < s.header.hdr_sequence) :
    processSeg w restart queue st s =
      StepRes.fail
        { st with trans := ctlTrans c st.trans,
                  next := nextSeq restart st.next
                    (thresholdOf (getOldestSequence (ctlTrans c st.trans))
                      c.offset c.sequence) c.sequence }
        ("Required segment " ++ toString (nextSeq restart st.next
            (thresholdOf (getOldestSequence (ctlTrans c st.trans)) c.offset
              c.sequence) c.sequence) ++ " is missing") := by
  unfold processSeg
  dsimp only []
  rw [hc]
  simp only [ctlOpen]
  rw [if_pos ⟨hsig, hver⟩, if_neg (not_lt.mpr hcnt)]
  dsimp only []
  rw [if_neg (not_le.mpr hff), if_pos hdb.symm]
  unfold segMid
  dsimp only []
  rw [updateCtl_self st.ctls s.header.hdr_guid c hc]
  rw [if_neg (not_lt.mpr hth), if_pos hgap]

/-- C3: a segment reached in queue order whose sequence exceeds the
expected `next_sequence` makes the pass raise "Required segment
`next_sequence` is missing", abort with `PROCESS_ERROR` without advancing
the control file for it (the returned state keeps the stored control files
untouched), and the worker then sleeps `apply_error_timeout`. -/
theorem c3_gap_aborts_pass (w : World) (restart : Bool)
    (queue rest : List SegFile) (st : PassState) (s : SegFile) (c : StoredCtl)
    (hc : lookupCtl st.ctls s.header.hdr_guid = some c)
    (hsig : c.signature = CTL_SIGNATURE)
    (hver : c.version = CTL_VERSION1)
    (hcnt : c.txn_count ≤ c.records.length)
    (hff : w.replicaSeq < s.header.hdr_sequence)
    (hdb : c.db_sequence = w.replicaSeq)
    (hth : thresholdOf (getOldestSequence (ctlTrans c st.trans)) c.offset
            c.sequence ≤ s.header.hdr_sequence)
    (hgap : nextSeq restart st.next
            (thresholdOf (getOldestSequence (ctlTrans c st.trans)) c.offset
              c.sequence) c.sequence < s.header.hdr_sequence) :
    segLoop w restart queue (s :: rest) st =
      ({ st with trans := ctlTrans c st.trans,
                 next := nextSeq restart st.next
                   (thresholdOf (getOldestSequence (ctlTrans c st.trans))
                     c.offset c.sequence) c.sequence },
       some ("Required segment " ++ toString (nextSeq restart st.next
           (thresholdOf (getOldestSequence (ctlTrans c st.trans)) c.offset
             c.sequence) c.sequence) ++ " is missing")) ∧
    (finishError w st ("Required segment " ++ toString (nextSeq restart st.next
        (thresholdOf (getOldestSequence (ctlTrans c st.trans)) c.offset
          c.sequence) c.sequence) ++ " is missing")).status =
      ProcessStatus.PROCESS_ERROR ∧
    workerTimeout ProcessStatus.PROCESS_ERROR w.cfg.applyIdleTimeout
      w.cfg.applyErrorTimeout = w.cfg.applyErrorTimeout := by
  refine ⟨?_, rfl, rfl⟩
  unfold segLoop
  rw [c3_processSeg_gap w restart queue st s c hc hsig hver hcnt hff hdb hth hgap]

/-- Witness for C3: the gap scenario (control file at 7, directory holding
segment 9) aborts expecting segment 8. -/
theorem c3_witness :
    segLoop gapW true [gapF9] (gapF9 :: []) gapSt0 =
      ({ gapSt0 with trans := ctlTrans gapCtl gapSt0.trans,
                     next := nextSeq true gapSt0.next
                       (thresholdOf (getOldestSequence (ctlTrans gapCtl gapSt0.trans))
                         gapCtl.offset gapCtl.sequence) gapCtl.sequence },
       some ("Required segment " ++ toString (nextSeq true gapSt0.next
           (thresholdOf (getOldestSequence (ctlTrans gapCtl gapSt0.trans))
             gapCtl.offset gapCtl.sequence) gapCtl.sequence) ++ " is missing")) ∧
    (finishError gapW gapSt0 ("Required segment " ++ toString (nextSeq true gapSt0.next
        (thresholdOf (getOldestSequence (ctlTrans gapCtl gapSt0.trans))
          gapCtl.offset gapCtl.sequence) gapCtl.sequence) ++ " is missing")).status =
      ProcessStatus.PROCESS_ERROR ∧
    workerTimeout ProcessStatus.PROCESS_ERROR gapW.cfg.applyIdleTimeout
      gapW.cfg.applyErrorTimeout = gapW.cfg.applyErrorTimeout :=
  c3_gap_aborts_pass gapW true [gapF9] [] gapSt0 gapF9 gapCtl (by decide)
    (by decide) (by decide) (by decide) (by decide) (by decide) (by decide)
    (by decide)

theorem c10_processSeg_denied (w : World) (restart : Bool)
    (queue : List SegFile) (st : PassState) (s : SegFile) (c : StoredCtl)
    (hc : lookupCtl st.ctls s.header.hdr_guid = some c)
    (hsig : c.signature = CTL_SIGNATURE)
    (hver : c.version = CTL_VERSION1)
    (hcnt : c.txn_count ≤ c.records.length)
    (hff : w.replicaSeq < s.header.hdr_sequence)
    (hdb : c.db_sequence = w.replicaSeq)
    (hth : thresholdOf (getOldestSequence (ctlTrans c st.trans)) c.offset
            c.sequence ≤ s.header.hdr_sequence)
    (heq : nextSeq restart st.next
            (thresholdOf (getOldestSequence (ctlTrans c st.trans)) c.offset
              c.sequence) c.sequence = s.header.hdr_sequence)
    (hden : s.replayOpen = OpenRes.denied) :
    processSeg w restart queue st s =
      StepRes.stop
        { st with trans := ctlTrans c st.trans,
                  next := nextSeq restart st.next
                    (thresholdOf (getOldestSequence (ctlTrans c st.trans))
                      c.offset c.sequence) c.sequence } := by
  unfold processSeg
  dsimp only []
  rw [hc]
  simp only [ctlOpen]
  rw [if_pos ⟨hsig, hver⟩, if_neg (not_lt.mpr hcnt)]
  dsimp only []
  rw [if_neg (not_le.mpr hff), if_pos hdb.symm]
  unfold segMid
  dsimp only []
  rw [updateCtl_self st.ctls s.header.hdr_guid c hc]
  rw [if_neg (not_lt.mpr hth), if_neg (by rw [heq]; exact lt_irrefl _),
      if_neg (by rw [heq]; exact lt_irrefl _)]
  unfold segReplay
  rw [hden]

/-- C10: when the replay-phase open of a segment that already passed the
scan fails with a sharing violation (`EACCES`/`EAGAIN`), the pass stops
processing the queue without raising an error: the loop ends with no
exception, and the resulting pass status is `PROCESS_SUSPEND` when no
segment was replayed in this pass and `PROCESS_CONTINUE` when at least one
was, never `PROCESS_ERROR` from this cause. -/
theorem c10_sharing_violation_breaks (w : World) (restart : Bool)
    (queue rest : List SegFile) (st : PassState) (s : SegFile) (c : StoredCtl)
    (hc : lookupCtl st.ctls s.header.hdr_guid = some c)
    (hsig : c.signature = CTL_SIGNATURE)
    (hver : c.version = CTL_VERSION1)
    (hcnt : c.txn_count ≤ c.records.length)
    (hff : w.replicaSeq < s.header.hdr_sequence)
    (hdb : c.db_sequence = w.replicaSeq)
    (hth : thresholdOf (getOldestSequence (ctlTrans c st.trans)) c.offset
            c.sequence ≤ s.header.hdr_sequence)
    (heq : nextSeq restart st.next
            (thresholdOf (getOldestSequence (ctlTrans c st.trans)) c.offset
              c.sequence) c.sequence = s.header.hdr_sequence)
    (hden : s.replayOpen = OpenRes.denied)
    (hret : st.ret = (if st.completed = 0 then ProcessStatus.PROCESS_SUSPEND
             else ProcessStatus.PROCESS_CONTINUE)) :
    segLoop w restart queue (s :: rest) st =
      ({ st with trans := ctlTrans c st.trans,
                 next := nextSeq restart st.next
                   (thresholdOf (getOldestSequence (ctlTrans c st.trans))
                     c.offset c.sequence) c.sequence }, none) ∧
    (passOut w (segLoop w restart queue (s :: rest) st).1 none).status =
      (if st.completed = 0 then ProcessStatus.PROCESS_SUSPEND
       else ProcessStatus.PROCESS_CONTINUE) ∧
    (passOut w (segLoop w restart queue (s :: rest) st).1 none).status ≠
      ProcessStatus.PROCESS_ERROR := by
  have hloop : segLoop w restart queue (s :: rest) st =
      ({ st with trans := ctlTrans c st.trans,
                 next := nextSeq restart st.next
                   (thresholdOf (getOldestSequence (ctlTrans c st.trans))
                     c.offset c.sequence) c.sequence }, none) := by
    unfold segLoop
    rw [c10_processSeg_denied w restart queue st s c hc hsig hver hcnt hff hdb
        hth heq hden]
  refine ⟨hloop, ?_, ?_⟩
  · rw [hloop]
    exact hret
  · rw [hloop]
    show st.ret ≠ ProcessStatus.PROCESS_ERROR
    rw [hret]
    split_ifs <;> decide

/-- Witness for C10: segment 8 is sharing-locked at replay; the loop stops
with no error and the pass suspends. -/
theorem c10_witness :
    segLoop c10W true [c10F8] (c10F8 :: []) c10St0 =
      ({ c10St0 with trans := ctlTrans gapCtl c10St0.trans,
                     next := nextSeq true c10St0.next
                       (thresholdOf (getOldestSequence (ctlTrans gapCtl c10St0.trans))
                         gapCtl.offset gapCtl.sequence) gapCtl.sequence }, none) ∧
    (passOut c10W (segLoop c10W true [c10F8] (c10F8 :: []) c10St0).1 none).status =
      (if c10St0.completed = 0 then ProcessStatus.PROCESS_SUSPEND
       else ProcessStatus.PROCESS_CONTINUE) ∧
    (passOut c10W (segLoop c10W true [c10F8] (c10F8 :: []) c10St0).1 none).status ≠
      ProcessStatus.PROCESS_ERROR :=
  c10_sharing_violation_breaks c10W true [c10F8] [] c10St0 c10F8 gapCtl
    (by decide) (by decide) (by decide) (by decide) (by decide) (by decide)
    (by decide) (by decide) (by decide) (by decide)

/-! ## Claims C1 and C8: deletion safety and assert safety.
Supporting lemmas about the active set and the control-file writes. -/

theorem foldl_min_le_init (l : TransactionList) (init : Nat) :
    l.foldl (fun s a => min s a.sequence) init ≤ init := by
  induction l generalizing init with
  | nil => exact Nat.le_refl _
  | cons a rest ih =>
    exact Nat.le_trans (ih (min init a.sequence)) (Nat.min_le_left _ _)

theorem foldl_min_le_mem (l : TransactionList) (t : ActiveTransaction) :
    ∀ init : Nat, t ∈ l → l.foldl (fun s a => min s a.sequence) init ≤ t.sequence := by
  induction l with
  | nil => intro init ht; cases ht
  | cons a rest ih =>
    intro init ht
    rcases List.mem_cons.mp ht with h | h
    · subst h
      exact Nat.le_trans (foldl_min_le_init rest _) (Nat.min_le_right _ _)
    · exact ih _ h

theorem getOldestSequence_le (l : TransactionList) (t : ActiveTransaction)
    (ht : t ∈ l) : getOldestSequence l ≤ t.sequence := by
  rcases l with _ | ⟨a, rest⟩
  · cases ht
  · unfold getOldestSequence
    rw [if_neg (by simp)]
    exact foldl_min_le_mem (a :: rest) t MAX_UINT64 ht

theorem foldl_min_pos (l : TransactionList) (init : Nat) (h0 : 0 < init)
    (hl : ∀ t ∈ l, 0 < t.sequence) :
    0 < l.foldl (fun s a => min s a.sequence) init := by
  induction l generalizing init with
  | nil => exact h0
  | cons a rest ih =>
    exact ih _ (lt_min h0 (hl a (List.mem_cons_self a rest)))
      (fun t ht => hl t (List.mem_cons_of_mem a ht))

theorem getOldest_eq_zero (l : TransactionList)
    (hl : ∀ t ∈ l, 0 < t.sequence) (h : getOldestSequence l = 0) : l = [] := by
  rcases l with _ | ⟨a, rest⟩
  · rfl
  · exfalso
    unfold getOldestSequence at h
    rw [if_neg (by simp)] at h
    have := foldl_min_pos (a :: rest) MAX_UINT64 (by norm_num [MAX_UINT64]) hl
    omega

theorem getOldest_le_bound (l : TransactionList) (s : Nat)
    (hb : ∀ t ∈ l, t.sequence ≤ s) (hne : getOldestSequence l ≠ 0) :
    getOldestSequence l ≤ s := by
  rcases l with _ | ⟨a, rest⟩
  · exact absurd rfl hne
  · exact Nat.le_trans (getOldestSequence_le _ a (List.mem_cons_self a rest))
      (hb a (List.mem_cons_self a rest))

theorem mem_removeTxn (l : TransactionList) (id : Nat) (t : ActiveTransaction)
    (ht : t ∈ removeTxn l id) : t ∈ l := by
  induction l with
  | nil => cases ht
  | cons a rest ih =>
    unfold removeTxn at ht
    split_ifs at ht
    · exact List.mem_cons_of_mem a ht
    · rcases List.mem_cons.mp ht with h | h
      · exact h ▸ List.mem_cons_self a rest
      · exact List.mem_cons_of_mem a (ih h)

theorem mem_addTxn (l : TransactionList) (a t : ActiveTransaction)
    (ht : t ∈ addTxn l a) : t = a ∨ t ∈ l := by
  induction l with
  | nil => simpa [addTxn] using ht
  | cons b rest ih =>
    unfold addTxn at ht
    split_ifs at ht
    · rcases List.mem_cons.mp ht with h | h
      · exact Or.inl h
      · exact Or.inr h
    · rcases List.mem_cons.mp ht with h | h
      · exact Or.inr (h ▸ List.mem_cons_self b rest)
      · rcases ih h with h' | h'
        · exact Or.inl h'
        · exact Or.inr (List.mem_cons_of_mem b h')

theorem replicate_trans_bound (applyOk : Bool) (sequence : Nat)
    (transactions : TransactionList) (b : Block) (rewind : Bool) (B : Nat)
    (hT : ∀ x ∈ transactions, 0 < x.sequence ∧ x.sequence ≤ B)
    (hs : 0 < sequence) (hsB : sequence ≤ B) :
    ∀ x ∈ (replicate applyOk sequence transactions b rewind).1,
      0 < x.sequence ∧ x.sequence ≤ B := by
  unfold replicate
  dsimp only []
  split_ifs with h1 h2 h3 h4 h5
  · exact hT
  · exact fun x hx => hT x (mem_removeTxn _ _ x hx)
  · intro x hx
    cases hx
  · exact hT
  · intro x hx
    rcases mem_addTxn _ _ x hx with h | h
    · subst h
      exact ⟨hs, hsB⟩
    · exact hT x h
  · exact hT
  · exact hT

theorem lookupCtl_updateCtl_self (l : List (Nat × StoredCtl)) (k : Nat)
    (c : StoredCtl) : lookupCtl (updateCtl l k c) k = some c := by
  induction l with
  | nil => simp [updateCtl, lookupCtl]
  | cons p rest ih =>
    rcases p with ⟨g, c0⟩
    unfold updateCtl
    by_cases hg : g = k
    · rw [if_pos hg]
      simp [lookupCtl]
    · rw [if_neg hg]
      unfold lookupCtl
      rw [if_neg hg]
      exact ih

theorem cfSync_writeFull (c : ControlFile) (m : CtlMem) (t : TransactionList) :
    cfSync (writeFull c m t) :=
  ⟨rfl, rfl, rfl, rfl⟩

theorem cfSync_writeHeader (c : ControlFile) (m : CtlMem) :
    cfSync (writeHeader c m) :=
  ⟨rfl, rfl, rfl, rfl⟩

theorem ctlWFb_writeFull (c : ControlFile) (m : CtlMem) (t : TransactionList)
    (hcnt : m.txn_count = t.length)
    (h : ∀ x ∈ t, 0 < x.sequence ∧ x.sequence ≤ m.sequence) :
    ctlWFb (writeFull c m t).disk = true := by
  unfold ctlWFb writeFull
  dsimp only []
  rw [hcnt, take_len_append]
  rw [List.all_eq_true]
  intro x hx
  obtain ⟨h1, h2⟩ := h x hx
  simp [h1, h2]

theorem savePartial_inv (c : ControlFile) (s o : Nat) (t : TransactionList)
    (hsync : cfSync c) (hwf : ctlWFb c.disk = true)
    (ht : ∀ x ∈ t, 0 < x.sequence ∧ x.sequence ≤ max c.mem.sequence s) :
    cfSync (savePartial c s o t) ∧ ctlWFb (savePartial c s o t).disk = true := by
  unfold savePartial
  split_ifs with h1 h2
  · exact ⟨cfSync_writeFull _ _ _, ctlWFb_writeFull _ _ _ rfl (by
      intro x hx
      obtain ⟨hx1, hx2⟩ := ht x hx
      exact ⟨hx1, by dsimp only []; omega⟩)⟩
  · exact ⟨cfSync_writeFull _ _ _, ctlWFb_writeFull _ _ _ rfl (by
      intro x hx
      obtain ⟨hx1, hx2⟩ := ht x hx
      exact ⟨hx1, by dsimp only []; omega⟩)⟩
  · exact ⟨hsync, hwf⟩

theorem saveComplete_inv (c : ControlFile) (s : Nat) (t : TransactionList)
    (hsync : cfSync c) (hwf : ctlWFb c.disk = true)
    (ht : ∀ x ∈ t, 0 < x.sequence ∧ x.sequence ≤ max c.mem.sequence s) :
    cfSync (saveComplete c s t) ∧ ctlWFb (saveComplete c s t).disk = true := by
  unfold saveComplete
  split_ifs with h1
  · exact ⟨cfSync_writeFull _ _ _, ctlWFb_writeFull _ _ _ rfl (by
      intro x hx
      obtain ⟨hx1, hx2⟩ := ht x hx
      exact ⟨hx1, by dsimp only []; omega⟩)⟩
  · exact ⟨hsync, hwf⟩

theorem saveComplete_cases (c : ControlFile) (s : Nat) (t : TransactionList) :
    ((saveComplete c s t).mem.offset = 0 ∧ (saveComplete c s t).mem.sequence = s ∧
      c.mem.sequence ≤ s) ∨
    (saveComplete c s t = c ∧ s < c.mem.sequence) := by
  unfold saveComplete
  split_ifs with h1
  · exact Or.inl ⟨rfl, rfl, h1⟩
  · exact Or.inr ⟨rfl, by omega⟩

theorem saveDbSequence_inv (c : ControlFile) (db : Nat)
    (hsync : cfSync c) (hwf : ctlWFb c.disk = true) :
    cfSync (saveDbSequence c db) ∧ ctlWFb (saveDbSequence c db).disk = true ∧
    (saveDbSequence c db).mem.sequence = c.mem.sequence ∧
    (saveDbSequence c db).mem.offset = c.mem.offset := by
  refine ⟨cfSync_writeHeader _ _, ?_, rfl, rfl⟩
  unfold ctlWFb saveDbSequence writeHeader
  dsimp only []
  unfold ctlWFb at hwf
  obtain ⟨hs, _, _, hcnt⟩ := hsync
  rw [← hs, ← hcnt]
  exact hwf

theorem savePartialAssert_of (c : ControlFile) (s : Nat)
    (hJ : c.mem.sequence < s → c.mem.offset = 0) :
    savePartialAssert c s = true := by
  unfold savePartialAssert
  by_cases h : c.mem.sequence < s
  · simp [hJ h]
  · simp [h]

theorem ctlOpen_sync (file : Option StoredCtl) (sequence : Nat)
    (trans : TransactionList) (cf : ControlFile) (t : TransactionList)
    (h : ctlOpen file sequence trans = Except.ok (cf, t)) : cfSync cf := by
  rcases file with _ | s
  · simp only [ctlOpen, Except.ok.injEq, Prod.mk.injEq] at h
    obtain ⟨h1, h2⟩ := h
    rw [← h1]
    exact ⟨rfl, rfl, rfl, rfl⟩
  · simp only [ctlOpen] at h
    split_ifs at h
    simp only [Except.ok.injEq, Prod.mk.injEq] at h
    obtain ⟨h1, h2⟩ := h
    rw [← h1]
    exact ⟨rfl, rfl, rfl, rfl⟩

theorem max_max_self (a s : Nat) : max (max a s) s = max a s := by
  rw [Nat.max_assoc, Nat.max_self]

theorem blockLoop_inv (w : World) (sequence hdrLen lsL loL lsO loO : Nat)
    (resetF : Bool) (db : Nat) (hseq : 1 ≤ sequence) :
    ∀ (blocks : List Block) (tot : Nat) (cf : ControlFile) (st : PassState),
      cfSync cf → ctlWFb cf.disk = true →
      (∀ x ∈ st.trans, 0 < x.sequence ∧ x.sequence ≤ max cf.mem.sequence sequence) →
      (cf.mem.sequence < sequence → cf.mem.offset = 0) →
      st.spAssertOk = true →
      (let r := blockLoop w sequence hdrLen lsL loL lsO loO resetF db blocks tot cf st
       cfSync r.1 ∧ ctlWFb r.1.disk = true ∧
       (∀ x ∈ r.2.1.trans, 0 < x.sequence ∧ x.sequence ≤ max r.1.mem.sequence sequence) ∧
       cf.mem.sequence ≤ r.1.mem.sequence ∧
       r.2.1.spAssertOk = true ∧
       r.2.1.deletions = st.deletions ∧
       r.2.1.ctls = st.ctls ∧
       r.2.1.removed = st.removed ∧
       r.2.1.next = st.next ∧
       r.2.1.ret = st.ret ∧
       r.2.1.completed = st.completed) := by
  intro blocks
  induction blocks with
  | nil =>
    intro tot cf st hsync hwf htr hJ hok
    unfold blockLoop
    split_ifs <;>
      exact ⟨hsync, hwf, htr, Nat.le_refl _, hok, rfl, rfl, rfl, rfl, rfl, rfl⟩
  | cons b rest ih =>
    intro tot cf st hsync hwf htr hJ hok
    unfold blockLoop
    dsimp only []
    split_ifs with h1 h2 h3
    · -- payload block, apply failed: loop stops with the state so far
      exact ⟨hsync, hwf, htr, Nat.le_refl _, hok, rfl, rfl, rfl, rfl, rfl, rfl⟩
    · -- payload block, dispatched: recurse
      have htr' := replicate_trans_bound w.applyOk sequence st.trans b
        (decide (sequence < lsL ∨ sequence = lsL ∧ (loL = 0 ∨ tot < loL)))
        (max cf.mem.sequence sequence) htr hseq (Nat.le_max_right _ _)
      have hsp := savePartial_inv cf sequence (tot + (SIZEOF_BLOCK + (b.dataLength + b.metaLength))) ((replicate w.applyOk sequence st.trans b (decide (sequence < lsL ∨ sequence = lsL ∧ (loL = 0 ∨ tot < loL)))).1) hsync hwf htr'
      have hms := savePartial_mem_sequence cf sequence (tot + (SIZEOF_BLOCK + (b.dataLength + b.metaLength))) ((replicate w.applyOk sequence st.trans b (decide (sequence < lsL ∨ sequence = lsL ∧ (loL = 0 ∨ tot < loL)))).1)
      have hres := ih (tot + (SIZEOF_BLOCK + (b.dataLength + b.metaLength))) (savePartial cf sequence (tot + (SIZEOF_BLOCK + (b.dataLength + b.metaLength))) ((replicate w.applyOk sequence st.trans b (decide (sequence < lsL ∨ sequence = lsL ∧ (loL = 0 ∨ tot < loL)))).1)) { ctls := st.ctls, trans := (replicate w.applyOk sequence st.trans b (decide (sequence < lsL ∨ sequence = lsL ∧ (loL = 0 ∨ tot < loL)))).1, next := st.next, ret := st.ret, completed := st.completed, removed := st.removed, deletions := st.deletions, applies := st.applies ++ [⟨sequence, b.traNumber, tot, (replicate w.applyOk sequence st.trans b (decide (sequence < lsL ∨ sequence = lsL ∧ (loL = 0 ∨ tot < loL)))).2.1, decide (sequence < lsL ∨ sequence = lsL ∧ (loL = 0 ∨ tot < loL)), lsO, loO, resetF, db, st.trans⟩], spAssertOk := st.spAssertOk && savePartialAssert cf sequence }
        hsp.1 hsp.2
        (by
          intro x hx
          obtain ⟨hx1, hx2⟩ := htr' x hx
          refine ⟨hx1, ?_⟩
          rw [hms, max_max_self]
          exact hx2)
        (by
          rw [hms]
          intro hlt
          exact absurd (Nat.le_max_right cf.mem.sequence sequence) (Nat.not_le.mpr hlt))
        (by
          show (st.spAssertOk && savePartialAssert cf sequence) = true
          rw [hok, savePartialAssert_of cf sequence hJ]
          rfl)
      obtain ⟨c1, c2, c3, c4, c5, c6, c7, c8, c9, c10, c11⟩ := hres
      refine ⟨c1, c2, c3, ?_, c5, c6, c7, c8, c9, c10, c11⟩
      refine Nat.le_trans ?_ c4
      rw [hms]
      exact Nat.le_max_left _ _
    · -- zero payload: recurse
      have hsp := savePartial_inv cf sequence (tot + (SIZEOF_BLOCK + (b.dataLength + b.metaLength))) st.trans hsync hwf htr
      have hms := savePartial_mem_sequence cf sequence (tot + (SIZEOF_BLOCK + (b.dataLength + b.metaLength))) st.trans
      have hres := ih (tot + (SIZEOF_BLOCK + (b.dataLength + b.metaLength))) (savePartial cf sequence (tot + (SIZEOF_BLOCK + (b.dataLength + b.metaLength))) st.trans) { ctls := st.ctls, trans := st.trans, next := st.next, ret := st.ret, completed := st.completed, removed := st.removed, deletions := st.deletions, applies := st.applies, spAssertOk := st.spAssertOk && savePartialAssert cf sequence }
        hsp.1 hsp.2
        (by
          intro x hx
          obtain ⟨hx1, hx2⟩ := htr x hx
          refine ⟨hx1, ?_⟩
          rw [hms, max_max_self]
          exact hx2)
        (by
          rw [hms]
          intro hlt
          exact absurd (Nat.le_max_right cf.mem.sequence sequence) (Nat.not_le.mpr hlt))
        (by
          show (st.spAssertOk && savePartialAssert cf sequence) = true
          rw [hok, savePartialAssert_of cf sequence hJ]
          rfl)
      obtain ⟨c1, c2, c3, c4, c5, c6, c7, c8, c9, c10, c11⟩ := hres
      refine ⟨c1, c2, c3, ?_, c5, c6, c7, c8, c9, c10, c11⟩
      refine Nat.le_trans ?_ c4
      rw [hms]
      exact Nat.le_max_left _ _
    · exact ⟨hsync, hwf, htr, Nat.le_refl _, hok, rfl, rfl, rfl, rfl, rfl, rfl⟩

theorem diskSeq_updateCtl (l : List (Nat × StoredCtl)) (g : Nat) (c : StoredCtl) :
    diskSeq (updateCtl l g c) g = c.sequence := by
  unfold diskSeq
  rw [lookupCtl_updateCtl_self]

theorem diskOff_updateCtl (l : List (Nat × StoredCtl)) (g : Nat) (c : StoredCtl) :
    diskOff (updateCtl l g c) g = c.offset := by
  unfold diskOff
  rw [lookupCtl_updateCtl_self]

theorem ctlsWF_updateCtl (l : List (Nat × StoredCtl)) (g : Nat) (c : StoredCtl) :
    ctlsWF (updateCtl l g c) g = ctlWFb c := by
  unfold ctlsWF
  rw [lookupCtl_updateCtl_self]

theorem ctlsOff0_diskOff (l : List (Nat × StoredCtl)) (g : Nat)
    (h : ctlsOff0 l g = true) : diskOff l g = 0 := by
  unfold ctlsOff0 at h
  unfold diskOff
  revert h
  rcases hlk : lookupCtl l g with _ | c <;> intro h
  · rfl
  · dsimp only [] at h ⊢
    exact eq_of_beq h

theorem mkDeletion_site (site : DelSite) (f : SegFile) (ctls : List (Nat × StoredCtl))
    (db : Nat) (active : TransactionList) :
    (mkDeletion site f ctls db active).site = site := by
  unfold mkDeletion
  rcases hlk : lookupCtl ctls f.header.hdr_guid with _ | c
  · rfl
  · rfl

theorem p4_mkDeletion_db (site : DelSite) (f : SegFile) (ctls : List (Nat × StoredCtl))
    (db : Nat) (active : TransactionList)
    (h : f.header.hdr_sequence ≤ db) :
    p4 (mkDeletion site f ctls db active) = true := by
  unfold mkDeletion
  rcases hlk : lookupCtl ctls f.header.hdr_guid with _ | c
  · simp only [p4, Bool.or_eq_true, Bool.and_eq_true, decide_eq_true_eq]
    exact Or.inl h
  · simp only [p4, Bool.or_eq_true, Bool.and_eq_true, decide_eq_true_eq]
    exact Or.inl h

theorem p4_mkDeletion_rep (site : DelSite) (f : SegFile) (ctls : List (Nat × StoredCtl))
    (db : Nat) (active : TransactionList) (c : StoredCtl)
    (hlk : lookupCtl ctls f.header.hdr_guid = some c)
    (hrep : f.header.hdr_sequence < c.sequence ∨
            (f.header.hdr_sequence = c.sequence ∧ c.offset = 0))
    (hact : active = [] ∨ f.header.hdr_sequence < getOldestSequence active) :
    p4 (mkDeletion site f ctls db active) = true := by
  unfold mkDeletion
  rw [hlk]
  simp only [p4, Bool.or_eq_true, Bool.and_eq_true, decide_eq_true_eq]
  right
  constructor
  · rcases hrep with h | ⟨h1, h2⟩
    · exact Or.inl h
    · exact Or.inr ⟨h1, h2⟩
  · rcases hact with h | h
    · subst h
      exact Or.inl rfl
    · exact Or.inr h

theorem mem_queueInsert (q : List SegFile) (f x : SegFile)
    (h : x ∈ queueInsert q f) : x ∈ q ∨ x = f := by
  induction q with
  | nil =>
    unfold queueInsert at h
    exact Or.inr (List.mem_singleton.mp h)
  | cons a rest ih =>
    unfold queueInsert at h
    split_ifs at h
    · rcases List.mem_cons.mp h with h1 | h1
      · exact Or.inr h1
      · exact Or.inl h1
    · rcases List.mem_cons.mp h with h1 | h1
      · exact Or.inl (h1 ▸ List.mem_cons_self a rest)
      · rcases ih h1 with h2 | h2
        · exact Or.inl (List.mem_cons_of_mem a h2)
        · exact Or.inr h2

theorem lbSuffix_subset (q : List SegFile) (k : Nat) (f : SegFile)
    (h : f ∈ lbSuffix q k) : f ∈ q := by
  induction q with
  | nil => cases h
  | cons a rest ih =>
    unfold lbSuffix at h
    split_ifs at h
    · exact h
    · exact List.mem_cons_of_mem a (ih h)

theorem scanLoop_inv (w : World) (g : Nat) (hg : w.cfg.sourceGuid = some g) :
    ∀ (fs queue : List SegFile) (dels : List Deletion) (removed : List Nat),
      (∀ f ∈ queue, f.header.hdr_guid = g) →
      (∀ d ∈ dels, d.site = DelSite.scanFree) →
      (∀ f ∈ (scanLoop w fs queue dels removed).1, f.header.hdr_guid = g) ∧
      (∀ d ∈ (scanLoop w fs queue dels removed).2.1, d.site = DelSite.scanFree) := by
  intro fs
  induction fs with
  | nil => intro queue dels removed hq hd; exact ⟨hq, hd⟩
  | cons f rest ih =>
    intro queue dels removed hq hd
    unfold scanLoop
    by_cases h1 : f.tmpName
    · rw [if_pos h1]
      exact ih queue dels removed hq hd
    · rw [if_neg h1]
      rcases ho : f.scanOpen with _ | _ | _
    -- ok
      · dsimp only []
        split_ifs with h2 h3 h4 h5 h6
        · exact ih queue dels removed hq hd
        · exact ih queue dels removed hq hd
        · exact ih queue dels removed hq hd
        · refine ih queue _ _ hq ?_
          intro d hdm
          rcases List.mem_append.mp hdm with hm | hm
          · exact hd d hm
          · rw [List.mem_singleton.mp hm]
            exact mkDeletion_site _ _ _ _ _
        · exact ih queue dels removed hq hd
        · refine ih _ dels removed ?_ hd
          intro x hx
          rcases mem_queueInsert queue f x hx with hm | hm
          · exact hq x hm
          · subst hm
            cases hb : checkGuid w.cfg x.header.hdr_guid with
            | false => exact absurd (by rw [hb]; rfl) h6
            | true =>
              unfold checkGuid at hb
              rw [hg] at hb
              dsimp only [] at hb
              exact (eq_of_beq hb).symm
    -- denied
      · exact ih queue dels removed hq hd
    -- failed
      · exact ⟨hq, hd⟩

theorem gcWalk_inv (w : World) (thr : Nat) :
    ∀ (l : List SegFile) (st : PassState),
      delsOK st →
      (∀ f ∈ l, f.header.hdr_sequence < thr →
        p4 (mkDeletion DelSite.queueGC f st.ctls w.replicaSeq st.trans) = true) →
      delsOK (gcWalk w thr l st).1 := by
  intro l
  induction l with
  | nil => intro st hd hp; exact hd
  | cons f rest ih =>
    intro st hd hp
    unfold gcWalk
    split_ifs with h1
    · exact hd
    · rcases hrf : removeFile w st f DelSite.queueGC with m | st'
      · exact hd
      · obtain ⟨ha, ht, hc, hn, hr, hcm, hs, hdl⟩ := removeFile_ok_state w st st' f _ hrf
        apply ih st'
        · intro d hdm hsite
          rw [hdl] at hdm
          rcases List.mem_append.mp hdm with hm | hm
          · exact hd d hm hsite
          · rw [List.mem_singleton.mp hm]
            exact hp f (List.mem_cons_self f rest) (by omega)
        · intro f2 hf2 hlt
          rw [hc, ht]
          exact hp f2 (List.mem_cons_of_mem f hf2) hlt

theorem segGC_dels (w : World) (queue : List SegFile) (seq org_oldest oldest2 : Nat)
    (st6 : PassState) (hd : delsOK st6)
    (hp : ∀ f ∈ queue,
      f.header.hdr_sequence < (if oldest2 ≠ 0 then min oldest2 seq else seq) →
      p4 (mkDeletion DelSite.queueGC f st6.ctls w.replicaSeq st6.trans) = true) :
    delsOK (segGC w queue seq org_oldest oldest2 st6).1 := by
  unfold segGC
  by_cases h1 : org_oldest ≠ 0 ∧ oldest2 ≠ org_oldest
  · rw [if_pos h1]
    dsimp only []
    rcases hlb : lbSuffix queue org_oldest with _ | ⟨f, tl⟩
    · exact hd
    · dsimp only []
      by_cases h2 : f.header.hdr_sequence = org_oldest
      · rw [if_pos h2]
        apply gcWalk_inv w _ (f :: tl) st6 hd
        intro f2 hf2 hlt
        refine hp f2 ?_ hlt
        apply lbSuffix_subset queue org_oldest f2
        rw [hlb]
        exact hf2
      · rw [if_neg h2]
        exact hd
  · rw [if_neg h1]
    exact hd

theorem segConsume_inv (w : World) (s : SegFile) (oldest2 : Nat)
    (gc : PassState × Option String)
    (hd : delsOK gc.1) (hok : gc.1.spAssertOk = true)
    (hp : oldest2 = 0 →
      p4 (mkDeletion DelSite.consumed s gc.1.ctls w.replicaSeq gc.1.trans) = true) :
    delsOK (stepState (segConsume w s oldest2 gc)) ∧
    (stepState (segConsume w s oldest2 gc)).spAssertOk = true ∧
    (∀ st', segConsume w s oldest2 gc = StepRes.next st' →
      st'.ctls = gc.1.ctls ∧ st'.trans = gc.1.trans ∧ st'.next = gc.1.next) := by
  unfold segConsume
  rcases gc with ⟨stG, e⟩
  rcases e with _ | m
  · dsimp only [] at hd hok hp ⊢
    split_ifs with h1
    · rcases hrf : removeFile w stG s DelSite.consumed with m | st7
      · exact ⟨hd, hok, by intro st' hst'; simp at hst'⟩
      · obtain ⟨ha, ht, hc, hn, hr, hcm, hs, hdl⟩ := removeFile_ok_state w stG st7 s _ hrf
        refine ⟨?_, ?_, ?_⟩
        · intro d hdm hsite
          dsimp only [stepState] at hdm
          rw [hdl] at hdm
          rcases List.mem_append.mp hdm with hm | hm
          · exact hd d hm hsite
          · rw [List.mem_singleton.mp hm]
            exact hp h1
        · dsimp only [stepState]
          rw [hs]
          exact hok
        · intro st' hst'
          simp only [StepRes.next.injEq] at hst'
          rw [← hst']
          exact ⟨hc, ht, hn⟩
    · refine ⟨?_, ?_, ?_⟩
      · intro d hdm hsite
        exact hd d hdm hsite
      · exact hok
      · intro st' hst'
        simp only [StepRes.next.injEq] at hst'
        rw [← hst']
        exact ⟨rfl, rfl, rfl⟩
  · exact ⟨hd, hok, by intro st' hst'; simp at hst'⟩

theorem ctlOpen_inv (ctls : List (Nat × StoredCtl)) (g sequence : Nat)
    (trans : TransactionList) (cf : ControlFile) (t : TransactionList)
    (hwf : ctlsWF ctls g = true)
    (htr : transBound trans (diskSeq ctls g))
    (h : ctlOpen (lookupCtl ctls g) sequence trans = Except.ok (cf, t)) :
    cfSync cf ∧ ctlWFb cf.disk = true ∧ transBound t cf.mem.sequence ∧
    (cf.mem.offset = 0 ∨
     (cf.mem.sequence = diskSeq ctls g ∧ cf.mem.offset = diskOff ctls g)) := by
  rcases hlk : lookupCtl ctls g with _ | s
  · rw [hlk] at h
    simp only [ctlOpen, Except.ok.injEq, Prod.mk.injEq] at h
    obtain ⟨h1, h2⟩ := h
    subst h1
    subst h2
    have hds : diskSeq ctls g = 0 := by unfold diskSeq; rw [hlk]
    refine ⟨⟨rfl, rfl, rfl, rfl⟩, rfl, ?_, Or.inl rfl⟩
    intro x hx
    exfalso
    have hb := htr x hx
    rw [hds] at hb
    exact absurd hb.2 (Nat.not_le.mpr hb.1)
  · rw [hlk] at h
    simp only [ctlOpen] at h
    split_ifs at h
    simp only [Except.ok.injEq, Prod.mk.injEq] at h
    obtain ⟨h2, h3⟩ := h
    subst h2
    subst h3
    unfold ctlsWF at hwf
    rw [hlk] at hwf
    dsimp only [] at hwf
    have hds : diskSeq ctls g = s.sequence := by unfold diskSeq; rw [hlk]
    have hdo : diskOff ctls g = s.offset := by unfold diskOff; rw [hlk]
    refine ⟨⟨rfl, rfl, rfl, rfl⟩, hwf, ?_, Or.inr ⟨hds.symm, hdo.symm⟩⟩
    unfold ctlTrans
    split_ifs with hc
    · intro x hx
      unfold ctlWFb at hwf
      rw [List.all_eq_true] at hwf
      have hx2 := hwf x hx
      rw [Bool.and_eq_true, decide_eq_true_eq, decide_eq_true_eq] at hx2
      exact hx2
    · intro x hx
      have hb := htr x hx
      rw [hds] at hb
      exact hb

theorem segFinish_inv (w : World) (g : Nat) (restart : Bool) (queue : List SegFile)
    (s : SegFile) (cf2 : ControlFile) (st4 : PassState) (org_oldest : Nat)
    (hg : s.header.hdr_guid = g)
    (hq : ∀ f ∈ queue, f.header.hdr_guid = g)
    (hsync : cfSync cf2) (hwf : ctlWFb cf2.disk = true)
    (htr : ∀ x ∈ st4.trans, 0 < x.sequence ∧
        x.sequence ≤ max cf2.mem.sequence s.header.hdr_sequence)
    (hd : delsOK st4) (hok : st4.spAssertOk = true) :
    stepOK g restart (segFinish w queue s cf2 st4 org_oldest) := by
  subst hg
  have hsc := saveComplete_inv cf2 s.header.hdr_sequence st4.trans hsync hwf htr
  have hms := saveComplete_mem_sequence cf2 s.header.hdr_sequence st4.trans
  have hpos : ∀ x ∈ st4.trans, 0 < x.sequence := fun x hx => (htr x hx).1
  have hseqle : s.header.hdr_sequence ≤ (saveComplete cf2 s.header.hdr_sequence st4.trans).disk.sequence := by
    rw [hsc.1.1, hms]
    exact Nat.le_max_right _ _
  unfold segFinish
  dsimp only []
  have hstgc := segGC_state w queue s.header.hdr_sequence org_oldest (getOldestSequence st4.trans) { ctls := updateCtl st4.ctls s.header.hdr_guid (saveComplete cf2 s.header.hdr_sequence st4.trans).disk, trans := st4.trans, next := s.header.hdr_sequence + 1, ret := st4.ret, completed := st4.completed, removed := st4.removed, deletions := st4.deletions, applies := st4.applies, spAssertOk := st4.spAssertOk }
  have hdgc : delsOK (segGC w queue s.header.hdr_sequence org_oldest (getOldestSequence st4.trans) { ctls := updateCtl st4.ctls s.header.hdr_guid (saveComplete cf2 s.header.hdr_sequence st4.trans).disk, trans := st4.trans, next := s.header.hdr_sequence + 1, ret := st4.ret, completed := st4.completed, removed := st4.removed, deletions := st4.deletions, applies := st4.applies, spAssertOk := st4.spAssertOk }).1 := by
    apply segGC_dels
    · intro d hdm hsite
      exact hd d hdm hsite
    · intro f hf hlt
      apply p4_mkDeletion_rep _ _ _ _ _ (saveComplete cf2 s.header.hdr_sequence st4.trans).disk
      · rw [hq f hf]
        exact lookupCtl_updateCtl_self _ _ _
      · left
        have hth : (if (getOldestSequence st4.trans) ≠ 0
            then min (getOldestSequence st4.trans) s.header.hdr_sequence
            else s.header.hdr_sequence) ≤ s.header.hdr_sequence := by
          split_ifs
          · exact Nat.min_le_right _ _
          · exact Nat.le_refl _
        omega
      · by_cases ho : (getOldestSequence st4.trans) = 0
        · left
          show st4.trans = []
          exact getOldest_eq_zero _ hpos ho
        · right
          rw [if_pos ho] at hlt
          have hmin := Nat.min_le_left (getOldestSequence st4.trans) s.header.hdr_sequence
          show f.header.hdr_sequence < (getOldestSequence st4.trans)
          omega
  have hokgc : (segGC w queue s.header.hdr_sequence org_oldest (getOldestSequence st4.trans) { ctls := updateCtl st4.ctls s.header.hdr_guid (saveComplete cf2 s.header.hdr_sequence st4.trans).disk, trans := st4.trans, next := s.header.hdr_sequence + 1, ret := st4.ret, completed := st4.completed, removed := st4.removed, deletions := st4.deletions, applies := st4.applies, spAssertOk := st4.spAssertOk }).1.spAssertOk = true := by
    rw [hstgc.2.2.2.2.2.2]
    exact hok
  have hcons := segConsume_inv w s (getOldestSequence st4.trans) (segGC w queue s.header.hdr_sequence org_oldest (getOldestSequence st4.trans) { ctls := updateCtl st4.ctls s.header.hdr_guid (saveComplete cf2 s.header.hdr_sequence st4.trans).disk, trans := st4.trans, next := s.header.hdr_sequence + 1, ret := st4.ret, completed := st4.completed, removed := st4.removed, deletions := st4.deletions, applies := st4.applies, spAssertOk := st4.spAssertOk }) hdgc hokgc (by
    intro ho
    rw [hstgc.2.2.1, hstgc.2.1]
    apply p4_mkDeletion_rep _ _ _ _ _ (saveComplete cf2 s.header.hdr_sequence st4.trans).disk
    · exact lookupCtl_updateCtl_self _ _ _
    · rcases saveComplete_cases cf2 s.header.hdr_sequence st4.trans with h1 | h1
      · right
        refine ⟨?_, ?_⟩
        · rw [hsc.1.1, h1.2.1]
        · rw [hsc.1.2.1, h1.1]
      · left
        rw [hsc.1.1, h1.1]
        exact h1.2
    · left
      show st4.trans = []
      exact getOldest_eq_zero _ hpos ho)
  refine ⟨hcons.1, hcons.2.1, ?_⟩
  intro st' hst'
  obtain ⟨hc', ht', hn'⟩ := hcons.2.2 st' hst'
  rw [hstgc.2.2.1] at hc'
  rw [hstgc.2.1] at ht'
  rw [hstgc.2.2.2.1] at hn'
  refine ⟨?_, ?_, ?_, ?_⟩
  · intro x hx
    rw [ht'] at hx
    have hb := htr x hx
    refine ⟨hb.1, ?_⟩
    rw [hc']
    show x.sequence ≤ diskSeq (updateCtl st4.ctls s.header.hdr_guid (saveComplete cf2 s.header.hdr_sequence st4.trans).disk)
      s.header.hdr_guid
    rw [diskSeq_updateCtl, hsc.1.1, hms]
    exact hb.2
  · rw [hc']
    show ctlsWF (updateCtl st4.ctls s.header.hdr_guid (saveComplete cf2 s.header.hdr_sequence st4.trans).disk)
      s.header.hdr_guid = true
    rw [ctlsWF_updateCtl]
    exact hsc.2
  · intro hz hrf
    rw [hn'] at hz
    exact absurd hz (Nat.succ_ne_zero _)
  · intro hne hlt
    rw [hc'] at hlt
    rw [hn'] at hlt
    have hlt2 : diskSeq (updateCtl st4.ctls s.header.hdr_guid (saveComplete cf2 s.header.hdr_sequence st4.trans).disk)
        s.header.hdr_guid < s.header.hdr_sequence + 1 := hlt
    rw [diskSeq_updateCtl, hsc.1.1, hms] at hlt2
    rw [hc']
    show diskOff (updateCtl st4.ctls s.header.hdr_guid (saveComplete cf2 s.header.hdr_sequence st4.trans).disk)
      s.header.hdr_guid = 0
    rw [diskOff_updateCtl]
    rcases saveComplete_cases cf2 s.header.hdr_sequence st4.trans with h1 | h1
    · rw [hsc.1.2.1, h1.1]
    · exfalso
      have hmax := Nat.le_max_left cf2.mem.sequence s.header.hdr_sequence
      have hgt := h1.2
      omega

theorem segReplay_inv (w : World) (g : Nat) (restart : Bool) (queue : List SegFile)
    (st : PassState) (s : SegFile) (cf : ControlFile) (ls lo lsO loO : Nat)
    (resetF : Bool) (org_oldest : Nat)
    (hg : s.header.hdr_guid = g)
    (hq : ∀ f ∈ queue, f.header.hdr_guid = g)
    (hseq1 : 1 ≤ s.header.hdr_sequence)
    (hsync : cfSync cf) (hwf : ctlWFb cf.disk = true)
    (htr : transBound st.trans cf.mem.sequence)
    (hJ : cf.mem.sequence < s.header.hdr_sequence → cf.mem.offset = 0)
    (hd : delsOK st) (hok : st.spAssertOk = true) :
    stepOK g restart (segReplay w queue st s cf ls lo lsO loO resetF org_oldest) := by
  unfold segReplay
  rcases hro : s.replayOpen with _ | _ | _
  · -- ok
    dsimp only []
    split_ifs with hch
    · exact ⟨hd, hok, by intro st' hst'; simp at hst'⟩
    · have hbl := blockLoop_inv w s.header.hdr_sequence s.header.hdr_length ls lo lsO loO
        resetF w.replicaSeq hseq1 s.blocks SIZEOF_SEGMENT_HEADER cf st hsync hwf
        (fun x hx => ⟨(htr x hx).1, Nat.le_trans (htr x hx).2 (Nat.le_max_left _ _)⟩)
        hJ hok
      obtain ⟨b1, b2, b3, b4, b5, b6, b7, b8, b9, b10, b11⟩ := hbl
      rcases hrr : (blockLoop w s.header.hdr_sequence s.header.hdr_length ls lo lsO loO
          resetF w.replicaSeq s.blocks SIZEOF_SEGMENT_HEADER cf st).2.2.2 with _ | m
      · -- clean block stream: finish the segment
        dsimp only []
        apply segFinish_inv w g restart queue s (blockLoop w s.header.hdr_sequence s.header.hdr_length ls lo lsO loO resetF w.replicaSeq s.blocks SIZEOF_SEGMENT_HEADER cf st).1 { ctls := updateCtl (blockLoop w s.header.hdr_sequence s.header.hdr_length ls lo lsO loO resetF w.replicaSeq s.blocks SIZEOF_SEGMENT_HEADER cf st).2.1.ctls s.header.hdr_guid (blockLoop w s.header.hdr_sequence s.header.hdr_length ls lo lsO loO resetF w.replicaSeq s.blocks SIZEOF_SEGMENT_HEADER cf st).1.disk, trans := (blockLoop w s.header.hdr_sequence s.header.hdr_length ls lo lsO loO resetF w.replicaSeq s.blocks SIZEOF_SEGMENT_HEADER cf st).2.1.trans, next := (blockLoop w s.header.hdr_sequence s.header.hdr_length ls lo lsO loO resetF w.replicaSeq s.blocks SIZEOF_SEGMENT_HEADER cf st).2.1.next, ret := (blockLoop w s.header.hdr_sequence s.header.hdr_length ls lo lsO loO resetF w.replicaSeq s.blocks SIZEOF_SEGMENT_HEADER cf st).2.1.ret, completed := (blockLoop w s.header.hdr_sequence s.header.hdr_length ls lo lsO loO resetF w.replicaSeq s.blocks SIZEOF_SEGMENT_HEADER cf st).2.1.completed, removed := (blockLoop w s.header.hdr_sequence s.header.hdr_length ls lo lsO loO resetF w.replicaSeq s.blocks SIZEOF_SEGMENT_HEADER cf st).2.1.removed, deletions := (blockLoop w s.header.hdr_sequence s.header.hdr_length ls lo lsO loO resetF w.replicaSeq s.blocks SIZEOF_SEGMENT_HEADER cf st).2.1.deletions, applies := (blockLoop w s.header.hdr_sequence s.header.hdr_length ls lo lsO loO resetF w.replicaSeq s.blocks SIZEOF_SEGMENT_HEADER cf st).2.1.applies, spAssertOk := (blockLoop w s.header.hdr_sequence s.header.hdr_length ls lo lsO loO resetF w.replicaSeq s.blocks SIZEOF_SEGMENT_HEADER cf st).2.1.spAssertOk } org_oldest hg hq b1 b2 b3
        · intro d hdm hsite
          have hdm2 : d ∈ (blockLoop w s.header.hdr_sequence s.header.hdr_length ls lo lsO loO resetF w.replicaSeq s.blocks SIZEOF_SEGMENT_HEADER cf st).2.1.deletions := hdm
          rw [b6] at hdm2
          exact hd d hdm2 hsite
        · exact b5
      · -- read/apply failure: the pass aborts
        dsimp only []
        refine ⟨?_, b5, by intro st' hst'; simp at hst'⟩
        intro d hdm hsite
        have hdm2 : d ∈ (blockLoop w s.header.hdr_sequence s.header.hdr_length ls lo
            lsO loO resetF w.replicaSeq s.blocks SIZEOF_SEGMENT_HEADER cf
            st).2.1.deletions := hdm
        rw [b6] at hdm2
        exact hd d hdm2 hsite
  · -- sharing violation: break out
    exact ⟨hd, hok, by intro st' hst'; simp at hst'⟩
  · -- open failure: the pass aborts
    exact ⟨hd, hok, by intro st' hst'; simp at hst'⟩

theorem segMid_inv (w : World) (g : Nat) (restart : Bool) (queue : List SegFile)
    (st : PassState) (s : SegFile) (cf : ControlFile) (ls lo lsO loO : Nat)
    (resetF : Bool)
    (hg : s.header.hdr_guid = g)
    (hq : ∀ f ∈ queue, f.header.hdr_guid = g)
    (hseq1 : 1 ≤ s.header.hdr_sequence)
    (hlk : lookupCtl st.ctls g = some cf.disk)
    (hsync : cfSync cf) (hwf : ctlWFb cf.disk = true)
    (hW : InvW g restart st)
    (hd : delsOK st) (hok : st.spAssertOk = true)
    (hJn : cf.mem.sequence <
        nextSeq restart st.next (thresholdOf (getOldestSequence st.trans) lo ls) ls →
      cf.mem.offset = 0)
    (hTp : s.header.hdr_sequence < thresholdOf (getOldestSequence st.trans) lo ls →
      p4 (mkDeletion DelSite.threshold s st.ctls w.replicaSeq st.trans) = true) :
    stepOK g restart (segMid w restart queue st s cf ls lo lsO loO resetF) := by
  obtain ⟨hW1, hW2, hW3, hW4⟩ := hW
  have hds : diskSeq st.ctls g = cf.mem.sequence := by
    unfold diskSeq
    rw [hlk]
    dsimp only []
    exact hsync.1
  have hdo : diskOff st.ctls g = cf.mem.offset := by
    unfold diskOff
    rw [hlk]
    dsimp only []
    exact hsync.2.1
  unfold segMid
  dsimp only []
  split_ifs with h1 h2 h3
  · -- the segment is below the retention threshold: deleted
    rcases hrf : removeFile w st s DelSite.threshold with m | st'
    · exact ⟨(by intro d hdm hsite; exact hd d hdm hsite), hok,
             by intro st2 hst2; simp at hst2⟩
    · obtain ⟨ha, ht, hc, hn, hr, hcm, hs, hdl⟩ := removeFile_ok_state w st st' s _ hrf
      refine ⟨?_, ?_, ?_⟩
      · intro d hdm hsite
        dsimp only [stepState] at hdm
        rw [hdl] at hdm
        rcases List.mem_append.mp hdm with hm | hm
        · exact hd d hm hsite
        · rw [List.mem_singleton.mp hm]
          exact hTp h1
      · dsimp only [stepState]
        rw [hs]
        exact hok
      · intro st2 hst2
        simp only [StepRes.next.injEq] at hst2
        subst hst2
        refine ⟨?_, ?_, ?_, ?_⟩
        · intro x hx
          rw [ht] at hx
          refine ⟨(hW1 x hx).1, ?_⟩
          rw [hc]
          exact (hW1 x hx).2
        · rw [hc]
          exact hW2
        · intro hz hrf2
          rw [hn] at hz
          rw [hc]
          exact hW3 hz hrf2
        · intro hnz hlt
          rw [hn] at hnz
          rw [hc, hn] at hlt
          rw [hc]
          exact hW4 hnz hlt
  · -- a required segment is missing: the pass aborts
    exact ⟨(by intro d hdm hsite; exact hd d hdm hsite), hok,
           by intro st2 hst2; simp at hst2⟩
  · -- already replayed: skipped
    refine ⟨(by intro d hdm hsite; exact hd d hdm hsite), hok, ?_⟩
    intro st2 hst2
    simp only [StepRes.next.injEq] at hst2
    subst hst2
    refine ⟨(by intro x hx; exact hW1 x hx), hW2, ?_, ?_⟩
    · intro hz hrf2
      exfalso
      have hz2 : nextSeq restart st.next (thresholdOf (getOldestSequence st.trans) lo ls) ls
          = 0 := hz
      unfold nextSeq at hz2
      by_cases hn0 : st.next = 0
      · rw [if_pos hn0, hrf2] at hz2
        simp at hz2
      · rw [if_neg hn0] at hz2
        exact absurd hz2 hn0
    · intro hnz hlt
      have hlt2 : diskSeq st.ctls g <
          nextSeq restart st.next (thresholdOf (getOldestSequence st.trans) lo ls) ls := hlt
      rw [hds] at hlt2
      show diskOff st.ctls g = 0
      rw [hdo]
      exact hJn hlt2
  · -- the expected segment: replay it
    have hseqeq : s.header.hdr_sequence =
        nextSeq restart st.next (thresholdOf (getOldestSequence st.trans) lo ls) ls := by
      omega
    apply segReplay_inv w g restart queue
      { ctls := st.ctls, trans := st.trans, next := nextSeq restart st.next (thresholdOf (getOldestSequence st.trans) lo ls) ls, ret := st.ret, completed := st.completed, removed := st.removed, deletions := st.deletions, applies := st.applies, spAssertOk := st.spAssertOk }
      s cf ls lo lsO loO resetF (getOldestSequence st.trans) hg hq hseq1 hsync hwf
    · intro x hx
      have hb := hW1 x hx
      rw [hds] at hb
      exact hb
    · intro hlt
      rw [hseqeq] at hlt
      exact hJn hlt
    · intro d hdm hsite
      exact hd d hdm hsite
    · exact hok

theorem processSeg_inv (w : World) (g : Nat) (restart : Bool) (queue : List SegFile)
    (st : PassState) (s : SegFile)
    (hg : s.header.hdr_guid = g)
    (hq : ∀ f ∈ queue, f.header.hdr_guid = g)
    (hW : InvW g restart st)
    (hd : delsOK st) (hok : st.spAssertOk = true) :
    stepOK g restart (processSeg w restart queue st s) := by
  subst hg
  obtain ⟨hW1, hW2, hW3, hW4⟩ := hW
  unfold processSeg
  dsimp only []
  rcases hco : ctlOpen (lookupCtl st.ctls s.header.hdr_guid) s.header.hdr_sequence st.trans
    with m | ⟨cf0, trans0⟩
  · exact ⟨(by intro d hdm hsite; exact hd d hdm hsite), hok,
           by intro st2 hst2; simp at hst2⟩
  · dsimp only []
    obtain ⟨ho1, ho2, ho3, ho4⟩ := ctlOpen_inv st.ctls s.header.hdr_guid
      s.header.hdr_sequence st.trans cf0 trans0 hW2 hW1 hco
    have hWst1 : InvW s.header.hdr_guid restart
        { ctls := updateCtl st.ctls s.header.hdr_guid cf0.disk, trans := trans0,
          next := st.next, ret := st.ret, completed := st.completed,
          removed := st.removed, deletions := st.deletions, applies := st.applies,
          spAssertOk := st.spAssertOk } := by
      refine ⟨?_, ?_, ?_, ?_⟩
      · intro x hx
        have hb := ho3 x hx
        refine ⟨hb.1, ?_⟩
        show x.sequence ≤
          diskSeq (updateCtl st.ctls s.header.hdr_guid cf0.disk) s.header.hdr_guid
        rw [diskSeq_updateCtl, ho1.1]
        exact hb.2
      · show ctlsWF (updateCtl st.ctls s.header.hdr_guid cf0.disk) s.header.hdr_guid = true
        rw [ctlsWF_updateCtl]
        exact ho2
      · intro hz hrf2
        have hz2 : st.next = 0 := hz
        show diskOff (updateCtl st.ctls s.header.hdr_guid cf0.disk) s.header.hdr_guid = 0
        rw [diskOff_updateCtl, ho1.2.1]
        rcases ho4 with h | h
        · exact h
        · rw [h.2]
          exact hW3 hz2 hrf2
      · intro hnz hlt
        have hnz2 : st.next ≠ 0 := hnz
        have hlt2 : diskSeq (updateCtl st.ctls s.header.hdr_guid cf0.disk)
            s.header.hdr_guid < st.next := hlt
        rw [diskSeq_updateCtl, ho1.1] at hlt2
        show diskOff (updateCtl st.ctls s.header.hdr_guid cf0.disk) s.header.hdr_guid = 0
        rw [diskOff_updateCtl, ho1.2.1]
        rcases ho4 with h | h
        · exact h
        · rw [h.2]
          apply hW4 hnz2
          rw [← h.1]
          exact hlt2
    obtain ⟨w1, w2, w3, w4⟩ := hWst1
    split_ifs with h1 h2
    · -- fast-forward: the segment is at or below the replica sequence
      rcases hrf : removeFile w
          { ctls := updateCtl st.ctls s.header.hdr_guid cf0.disk, trans := trans0,
            next := st.next, ret := st.ret, completed := st.completed,
            removed := st.removed, deletions := st.deletions, applies := st.applies,
            spAssertOk := st.spAssertOk } s DelSite.fastForward with m | st'
      · exact ⟨(by intro d hdm hsite; exact hd d hdm hsite), hok,
               by intro st2 hst2; simp at hst2⟩
      · obtain ⟨ha, ht, hc, hn, hr, hcm, hs, hdl⟩ := removeFile_ok_state w _ st' s _ hrf
        refine ⟨?_, ?_, ?_⟩
        · intro d hdm hsite
          dsimp only [stepState] at hdm
          rw [hdl] at hdm
          rcases List.mem_append.mp hdm with hm | hm
          · exact hd d hm hsite
          · rw [List.mem_singleton.mp hm]
            exact p4_mkDeletion_db _ _ _ _ _ h1
        · dsimp only [stepState]
          rw [hs]
          exact hok
        · intro st2 hst2
          simp only [StepRes.next.injEq] at hst2
          subst hst2
          refine ⟨?_, ?_, ?_, ?_⟩
          · intro x hx
            rw [ht] at hx
            refine ⟨(w1 x hx).1, ?_⟩
            rw [hc]
            exact (w1 x hx).2
          · rw [hc]
            exact w2
          · intro hz hrf2
            rw [hn] at hz
            rw [hc]
            exact w3 hz hrf2
          · intro hnz hlt
            rw [hn] at hnz
            rw [hc, hn] at hlt
            rw [hc]
            exact w4 hnz hlt
    · -- no replica reset: replay against the stored cursor
      apply segMid_inv w s.header.hdr_guid restart queue
        { ctls := updateCtl st.ctls s.header.hdr_guid cf0.disk, trans := trans0,
          next := st.next, ret := st.ret, completed := st.completed,
          removed := st.removed, deletions := st.deletions, applies := st.applies,
          spAssertOk := st.spAssertOk }
        s cf0 cf0.mem.sequence cf0.mem.offset cf0.mem.sequence cf0.mem.offset false
        rfl hq (by omega) (lookupCtl_updateCtl_self _ _ _) ho1 ho2 ⟨w1, w2, w3, w4⟩
        (by intro d hdm hsite; exact hd d hdm hsite) hok
      · -- the stored cursor is clean whenever the loop moves past it
        intro hlt
        have hlt2 : cf0.mem.sequence < nextSeq restart st.next
            (thresholdOf (getOldestSequence trans0) cf0.mem.offset cf0.mem.sequence)
            cf0.mem.sequence := hlt
        unfold nextSeq at hlt2
        by_cases hn0 : st.next = 0
        · rw [if_pos hn0] at hlt2
          cases hrt : restart with
          | false =>
            rcases ho4 with h | h
            · exact h
            · rw [h.2]
              exact hW3 hn0 hrt
          | true =>
            rw [hrt, if_pos rfl] at hlt2
            unfold thresholdOf at hlt2
            by_cases hol : getOldestSequence trans0 ≠ 0
            · rw [if_pos hol] at hlt2
              exfalso
              have hole := getOldest_le_bound trans0 cf0.mem.sequence
                (fun x hx => (ho3 x hx).2) hol
              omega
            · rw [if_neg hol] at hlt2
              by_cases hlo0 : cf0.mem.offset ≠ 0
              · rw [if_pos hlo0] at hlt2
                exfalso
                omega
              · exact not_not.mp hlo0
        · rw [if_neg hn0] at hlt2
          rcases ho4 with h | h
          · exact h
          · rw [h.2]
            apply hW4 hn0
            rw [← h.1]
            exact hlt2
      · -- a below-threshold segment is safe to delete
        intro hlt
        have hlt2 : s.header.hdr_sequence <
            thresholdOf (getOldestSequence trans0) cf0.mem.offset cf0.mem.sequence := hlt
        show p4 (mkDeletion DelSite.threshold s
          (updateCtl st.ctls s.header.hdr_guid cf0.disk) w.replicaSeq trans0) = true
        apply p4_mkDeletion_rep _ _ _ _ _ cf0.disk
        · exact lookupCtl_updateCtl_self _ _ _
        · unfold thresholdOf at hlt2
          by_cases hol : getOldestSequence trans0 ≠ 0
          · rw [if_pos hol] at hlt2
            left
            have hole := getOldest_le_bound trans0 cf0.mem.sequence
              (fun x hx => (ho3 x hx).2) hol
            rw [ho1.1]
            omega
          · rw [if_neg hol] at hlt2
            by_cases hlo0 : cf0.mem.offset ≠ 0
            · rw [if_pos hlo0] at hlt2
              left
              rw [ho1.1]
              exact hlt2
            · rw [if_neg hlo0] at hlt2
              by_cases hseqc : s.header.hdr_sequence = cf0.mem.sequence
              · right
                refine ⟨?_, ?_⟩
                · rw [ho1.1]
                  exact hseqc
                · rw [ho1.2.1]
                  exact not_not.mp hlo0
              · left
                rw [ho1.1]
                omega
        · by_cases hol : getOldestSequence trans0 = 0
          · left
            exact getOldest_eq_zero _ (fun x hx => (ho3 x hx).1) hol
          · right
            have hlt2 : s.header.hdr_sequence <
                thresholdOf (getOldestSequence trans0) cf0.mem.offset cf0.mem.sequence := hlt
            unfold thresholdOf at hlt2
            rw [if_pos hol] at hlt2
            exact hlt2
    · -- replica reset: rewind the cursor to the reported db sequence
      have hA := saveDbSequence_inv cf0 w.replicaSeq ho1 ho2
      have hB := saveComplete_inv (saveDbSequence cf0 w.replicaSeq) w.replicaSeq []
        hA.1 hA.2.1 (by intro x hx; cases hx)
      have hBc := saveComplete_cases (saveDbSequence cf0 w.replicaSeq) w.replicaSeq []
      have h0 : getOldestSequence ([] : TransactionList) = 0 := rfl
      have hthr : thresholdOf (getOldestSequence ([] : TransactionList)) 0 w.replicaSeq
          = w.replicaSeq + 1 := by
        rw [h0]
        unfold thresholdOf
        rw [if_neg (by omega), if_neg (by omega)]
      apply segMid_inv w s.header.hdr_guid restart queue
        { ctls := updateCtl (updateCtl st.ctls s.header.hdr_guid cf0.disk)
            s.header.hdr_guid
            (saveComplete (saveDbSequence cf0 w.replicaSeq) w.replicaSeq []).disk,
          trans := [], next := st.next, ret := st.ret, completed := st.completed,
          removed := st.removed, deletions := st.deletions, applies := st.applies,
          spAssertOk := st.spAssertOk }
        s (saveComplete (saveDbSequence cf0 w.replicaSeq) w.replicaSeq [])
        w.replicaSeq 0 cf0.mem.sequence cf0.mem.offset true
        rfl hq (by omega) (lookupCtl_updateCtl_self _ _ _) hB.1 hB.2
      · -- working invariant after the rewind
        refine ⟨?_, ?_, ?_, ?_⟩
        · intro x hx
          have hx2 : x ∈ ([] : TransactionList) := hx
          cases hx2
        · show ctlsWF (updateCtl (updateCtl st.ctls s.header.hdr_guid cf0.disk)
            s.header.hdr_guid
            (saveComplete (saveDbSequence cf0 w.replicaSeq) w.replicaSeq []).disk)
            s.header.hdr_guid = true
          rw [ctlsWF_updateCtl]
          exact hB.2
        · intro hz hrf2
          have hz2 : st.next = 0 := hz
          show diskOff (updateCtl (updateCtl st.ctls s.header.hdr_guid cf0.disk)
            s.header.hdr_guid
            (saveComplete (saveDbSequence cf0 w.replicaSeq) w.replicaSeq []).disk)
            s.header.hdr_guid = 0
          rw [diskOff_updateCtl, hB.1.2.1]
          rcases hBc with hb | hb
          · exact hb.1
          · rw [hb.1, hA.2.2.2]
            rcases ho4 with h | h
            · exact h
            · rw [h.2]
              exact hW3 hz2 hrf2
        · intro hnz hlt
          have hnz2 : st.next ≠ 0 := hnz
          have hlt2 : diskSeq (updateCtl (updateCtl st.ctls s.header.hdr_guid cf0.disk)
              s.header.hdr_guid
              (saveComplete (saveDbSequence cf0 w.replicaSeq) w.replicaSeq []).disk)
              s.header.hdr_guid < st.next := hlt
          rw [diskSeq_updateCtl, hB.1.1] at hlt2
          show diskOff (updateCtl (updateCtl st.ctls s.header.hdr_guid cf0.disk)
            s.header.hdr_guid
            (saveComplete (saveDbSequence cf0 w.replicaSeq) w.replicaSeq []).disk)
            s.header.hdr_guid = 0
          rw [diskOff_updateCtl, hB.1.2.1]
          rcases hBc with hb | hb
          · exact hb.1
          · rw [hb.1, hA.2.2.2]
            rw [hb.1, hA.2.2.1] at hlt2
            rcases ho4 with h | h
            · exact h
            · rw [h.2]
              apply hW4 hnz2
              rw [← h.1]
              exact hlt2
      · intro d hdm hsite
        exact hd d hdm hsite
      · exact hok
      · -- the rewound cursor is clean whenever the loop moves past it
        intro hlt
        have hlt2 : (saveComplete (saveDbSequence cf0 w.replicaSeq)
            w.replicaSeq []).mem.sequence < nextSeq restart st.next
            (thresholdOf (getOldestSequence ([] : TransactionList)) 0 w.replicaSeq)
            w.replicaSeq := hlt
        rw [hthr] at hlt2
        unfold nextSeq at hlt2
        by_cases hn0 : st.next = 0
        · rw [if_pos hn0] at hlt2
          have hlt3 : (saveComplete (saveDbSequence cf0 w.replicaSeq)
              w.replicaSeq []).mem.sequence < w.replicaSeq + 1 := by
            cases hrt : restart with
            | false =>
              rw [hrt] at hlt2
              simpa using hlt2
            | true =>
              rw [hrt] at hlt2
              simpa using hlt2
          rcases hBc with hb | hb
          · exact hb.1
          · exfalso
            rw [hb.1, hA.2.2.1] at hlt3
            have hgt := hb.2
            rw [hA.2.2.1] at hgt
            omega
        · rw [if_neg hn0] at hlt2
          rcases hBc with hb | hb
          · exact hb.1
          · rw [hb.1, hA.2.2.2]
            rw [hb.1, hA.2.2.1] at hlt2
            rcases ho4 with h | h
            · exact h
            · rw [h.2]
              apply hW4 hn0
              rw [← h.1]
              exact hlt2
      · -- nothing sits below the rewound threshold
        intro hlt
        exfalso
        have hlt2 : s.header.hdr_sequence <
            thresholdOf (getOldestSequence ([] : TransactionList)) 0 w.replicaSeq := hlt
        rw [hthr] at hlt2
        omega

theorem segLoop_inv (w : World) (g : Nat) (restart : Bool) (queue : List SegFile)
    (hq : ∀ f ∈ queue, f.header.hdr_guid = g) :
    ∀ (l : List SegFile) (st : PassState),
      (∀ s ∈ l, s.header.hdr_guid = g) →
      InvW g restart st → delsOK st → st.spAssertOk = true →
      delsOK (segLoop w restart queue l st).1 ∧
      (segLoop w restart queue l st).1.spAssertOk = true := by
  intro l
  induction l with
  | nil => intro st hl hW hd hok; exact ⟨hd, hok⟩
  | cons s rest ih =>
    intro st hl hW hd hok
    unfold segLoop
    have hps := processSeg_inv w g restart queue st s (hl s (List.mem_cons_self s rest))
      hq hW hd hok
    cases hpe : processSeg w restart queue st s with
    | next st' =>
      rw [hpe] at hps
      obtain ⟨p1, p2, p3⟩ := hps
      exact ih st' (fun x hx => hl x (List.mem_cons_of_mem s hx)) (p3 st' rfl) p1 p2
    | stop st' =>
      rw [hpe] at hps
      exact ⟨hps.1, hps.2.1⟩
    | fail st' m =>
      rw [hpe] at hps
      exact ⟨hps.1, hps.2.1⟩

theorem passOut_dels_sp (w : World) (st : PassState) (e : Option String) :
    (passOut w st e).deletions = st.deletions ∧
    (passOut w st e).spAssertOk = st.spAssertOk := by
  cases e <;> exact ⟨rfl, rfl⟩

theorem pass_inv (w : World) (g : Nat)
    (hg : w.cfg.sourceGuid = some g)
    (hwf : ctlsWF w.ctls g = true)
    (hoff : w.connected = true → ctlsOff0 w.ctls g = true) :
    (∀ d ∈ (process_archive w).deletions, d.site ≠ DelSite.scanFree → p4 d = true) ∧
    (process_archive w).spAssertOk = true := by
  have hscan := scanLoop_inv w g hg w.files [] [] []
    (by intro f hf; cases hf) (by intro d hd0; cases hd0)
  have hd0 : ∀ d ∈ (scanLoop w w.files [] [] []).2.1, d.site ≠ DelSite.scanFree → p4 d = true := by
    intro d hdm hsite
    exact absurd (hscan.2 d hdm) hsite
  simp only [process_archive]
  rcases hsc : (scanLoop w w.files [] [] []).2.2.2 with _ | m1
  · dsimp only []
    by_cases hqE : (scanLoop w w.files [] [] []).1.isEmpty = true
    · rw [if_pos hqE]
      obtain ⟨hpd, hps⟩ := passOut_dels_sp w { ctls := w.ctls, trans := [], next := 0, ret := ProcessStatus.PROCESS_SUSPEND, completed := 0, removed := (scanLoop w w.files [] [] []).2.2.1, deletions := (scanLoop w w.files [] [] []).2.1, applies := [], spAssertOk := true } none
      constructor
      · rw [hpd]
        exact hd0
      · rw [hps]
    · rw [if_neg hqE]
      have hInv : InvW g (!w.connected) { ctls := w.ctls, trans := [], next := 0, ret := ProcessStatus.PROCESS_SUSPEND, completed := 0, removed := (scanLoop w w.files [] [] []).2.2.1, deletions := (scanLoop w w.files [] [] []).2.1, applies := [], spAssertOk := true } := by
        refine ⟨?_, ?_, ?_, ?_⟩
        · intro x hx
          have hx2 : x ∈ ([] : TransactionList) := hx
          cases hx2
        · exact hwf
        · intro hz hrf
          have hcon : w.connected = true := by
            cases hcn : w.connected
            · rw [hcn] at hrf
              simp at hrf
            · rfl
          show diskOff w.ctls g = 0
          exact ctlsOff0_diskOff w.ctls g (hoff hcon)
        · intro hnz hlt
          exact absurd rfl hnz
      have hseg := segLoop_inv w g (!w.connected) (scanLoop w w.files [] [] []).1 hscan.1
        (scanLoop w w.files [] [] []).1 { ctls := w.ctls, trans := [], next := 0, ret := ProcessStatus.PROCESS_SUSPEND, completed := 0, removed := (scanLoop w w.files [] [] []).2.2.1, deletions := (scanLoop w w.files [] [] []).2.1, applies := [], spAssertOk := true } hscan.1 hInv hd0 rfl
      obtain ⟨hpd, hps⟩ := passOut_dels_sp w (segLoop w (!w.connected) (scanLoop w w.files [] [] []).1 (scanLoop w w.files [] [] []).1 { ctls := w.ctls, trans := [], next := 0, ret := ProcessStatus.PROCESS_SUSPEND, completed := 0, removed := (scanLoop w w.files [] [] []).2.2.1, deletions := (scanLoop w w.files [] [] []).2.1, applies := [], spAssertOk := true }).1 (segLoop w (!w.connected) (scanLoop w w.files [] [] []).1 (scanLoop w w.files [] [] []).1 { ctls := w.ctls, trans := [], next := 0, ret := ProcessStatus.PROCESS_SUSPEND, completed := 0, removed := (scanLoop w w.files [] [] []).2.2.1, deletions := (scanLoop w w.files [] [] []).2.1, applies := [], spAssertOk := true }).2
      constructor
      · rw [hpd]
        exact hseg.1
      · rw [hps]
        exact hseg.2
  · obtain ⟨hpd, hps⟩ := passOut_dels_sp w { ctls := w.ctls, trans := [], next := 0, ret := ProcessStatus.PROCESS_SUSPEND, completed := 0, removed := (scanLoop w w.files [] [] []).2.2.1, deletions := (scanLoop w w.files [] [] []).2.1, applies := [], spAssertOk := true } (some m1)
    constructor
    · rw [hpd]
      exact hd0
    · rw [hps]

/-- C1 (amended): for a target configured with a single source GUID whose
stored control file is well-formed, and whose stored offset is clean when
the pass starts connected, every segment-file deletion of `process_archive`
at any site other than the scan's deletion of `FREE`-state segments
satisfies the deletion-safety condition P4: the segment's sequence is at
most the replica's reported `db_sequence`, or the segment is fully replayed
per the stored cursor and its sequence is strictly below the minimum
sequence of the active set (fully replayed alone sufficing when the set is
empty).  The scan-phase deletion of `FREE` segments is excluded: it fires
on sight and violates P4 (see the counterexample). -/
theorem c1_deletions (w : World) (g : Nat)
    (hg : w.cfg.sourceGuid = some g)
    (hwf : ctlsWF w.ctls g = true)
    (hoff : w.connected = true → ctlsOff0 w.ctls g = true) :
    ∀ d ∈ (process_archive w).deletions, d.site ≠ DelSite.scanFree → p4 d = true :=
  (pass_inv w g hg hwf hoff).1

/-- Witness for the amended C1: in `ffW` the pass deletes segment 3 at the
fast-forward site (replica already at sequence 5), and that deletion
satisfies P4. -/
theorem c1_witness :
    (⟨DelSite.fastForward, 3, 5, 2, 0, []⟩ : Deletion) ∈ (process_archive ffW).deletions ∧
    DelSite.fastForward ≠ DelSite.scanFree ∧
    p4 (⟨DelSite.fastForward, 3, 5, 2, 0, []⟩ : Deletion) = true := by
  refine ⟨by decide, by decide, ?_⟩
  exact c1_deletions ffW 1 rfl (by decide) (by decide) _ (by decide) (by decide)

/-- C8 (amended): for a target configured with a single source GUID whose
stored control file is well-formed, and whose stored offset is clean when
the pass starts connected, the `fb_assert(!m_data.offset)` inside
`ControlFile::savePartial` never fails during a `process_archive` pass:
whenever `savePartial` is called with a sequence beyond the in-memory one,
the in-memory offset is 0.  The single-source hypothesis is necessary:
see the counterexample for the accept-any-GUID configuration. -/
theorem c8_assert_safe (w : World) (g : Nat)
    (hg : w.cfg.sourceGuid = some g)
    (hwf : ctlsWF w.ctls g = true)
    (hoff : w.connected = true → ctlsOff0 w.ctls g = true) :
    (process_archive w).spAssertOk = true :=
  (pass_inv w g hg hwf hoff).2

/-- Witness for C8: a fresh single-source world replaying one full segment
with one committed block passes every checkpoint assertion. -/
theorem c8_witness : (process_archive c8W).spAssertOk = true :=
  c8_assert_safe c8W 1 rfl (by decide) (by decide)

/-- C8 as stated ("in every reachable state") is false when the target
accepts any source GUID: the per-pass expected sequence (`m_next_sequence`)
is global while the stored cursors are per-source.  In `mixW`, completing
source 1's segment 6 sets the expected sequence to 7, source 2's segment 6
is skipped by the `sequence < next_sequence` check, and source 2's segment
7 is replayed against its cursor (6, 50): `savePartial(7, ...)` enters the
sequence-advance branch with `m_data.offset = 50`, so the
`fb_assert(!m_data.offset)` fails. -/
theorem c8_counterexample : (process_archive mixW).spAssertOk = false := by
  decide
